import Mathlib

/-!
Shallow embedding of `src/malloc.cpp` (asynchronous memory allocation
system + cache) and proofs about its specification claims.

The embedding models the build with the CPU worker pool enabled
(`ENOKI_ENABLE_TBB` defined), which is the configuration the spec
describes (it has a CPU-worker backend and `HostAsync` allocations).
Machine integers (`size_t`) are modelled as `Nat` with explicit
wrap-around modulo `2^64` where the C code can overflow.  External
effects (the raw allocators, the CUDA driver calls, the enqueued
callbacks) are recorded as an event trace in the state; the raw
allocator is an oracle: a list of responses consumed one per attempt.
-/

namespace Malloc

/-- 2^64, the modulus of `size_t` arithmetic, as a literal. -/
def two64 : Nat := 18446744073709551616

theorem two64_eq : two64 = 2 ^ 64 := by norm_num [two64]

/-- `enum class AllocType` from the headers: the six allocation kinds
used throughout `malloc.cpp`. -/
inductive AllocType where
  | Host
  | HostAsync
  | HostPinned
  | Device
  | Managed
  | ManagedReadMostly
deriving DecidableEq, Fintype

/-- `AllocInfo` (kind, device, size): the descriptor of every live or
cached allocation, and the cache bucket key.  `device` is 0 for kinds
not tied to a specific GPU. -/
structure AllocInfo where
  type : AllocType
  device : Nat
  size : Nat
deriving DecidableEq

/-- Pointers are modelled as natural numbers; `0` is the null pointer. -/
abbrev Ptr := Nat

/-- A bucket map `AllocInfo → stack of pointers`, modelled as an
association list (`tsl::robin_map` in the source). -/
abbrev BucketMap := List (AllocInfo × List Ptr)

/-- One node of a release chain: its `entries` bucket map.  A chain
(`ReleaseChain*` linked via `next`) is a list of nodes, head first;
the empty list stands for a null chain pointer. -/
abbrev ChainNode := BucketMap
abbrev Chain := List ChainNode

/-- The fields of `Stream` (declared in `internal.h`) that
`malloc.cpp` uses: the backend flag (`cuda`), the device id, and the
head of the stream's release chain.  Modelled from the spec: the
spec's Stream carries a backend flag, a device id, a driver handle
(irrelevant here) and owns a head `ReleaseChain*`. -/
structure Stream where
  cuda : Bool
  device : Nat
  release_chain : Chain
deriving DecidableEq

/-- Per-kind `size_t` counters (`alloc_usage` / `alloc_watermark`). -/
structure KindCounts where
  host : Nat
  hostAsync : Nat
  hostPinned : Nat
  device : Nat
  managed : Nat
  managedRM : Nat
deriving DecidableEq

def KindCounts.get (c : KindCounts) : AllocType → Nat
  | .Host => c.host
  | .HostAsync => c.hostAsync
  | .HostPinned => c.hostPinned
  | .Device => c.device
  | .Managed => c.managed
  | .ManagedReadMostly => c.managedRM

def KindCounts.set (c : KindCounts) : AllocType → Nat → KindCounts
  | .Host, v => { c with host := v }
  | .HostAsync, v => { c with hostAsync := v }
  | .HostPinned, v => { c with hostPinned := v }
  | .Device, v => { c with device := v }
  | .Managed, v => { c with managed := v }
  | .ManagedReadMostly, v => { c with managedRM := v }

def KindCounts.zero : KindCounts := ⟨0, 0, 0, 0, 0, 0⟩

/-- External effects of the allocator, recorded as a trace: raw
allocator attempts, raw frees, CUDA driver calls, and enqueued
callbacks.  `trimCalled` marks every entry into `jit_malloc_trim`,
`warnOOM` the out-of-memory warning it may log. -/
inductive Event where
  | rawAllocAttempt (t : AllocType) (size : Nat) (result : Option Ptr)
  | rawFree (t : AllocType) (p : Ptr)
  | hostRegister (p : Ptr)
  | hostUnregister (p : Ptr)
  | memcpyAsync (dst : Ptr) (src : Ptr) (size : Nat)
  | enqueueFlushCallback
  | enqueueUnmapRecord (also_free : Bool) (p : Ptr)
  | syncAllDevices
  | trimCalled (warn : Bool)
  | warnOOM
  | prefetchAsync (p : Ptr) (size : Nat) (dev : Int)
deriving DecidableEq

/-- The errors `jit_raise` surfaces from the functions of
`malloc.cpp`. -/
inductive Error where
  | NoActiveStream
  | WrongBackend
  | OutOfMemory
  | UnknownPointer
  | InvalidDeviceId
  | InvalidPrefetchKind
  | UnsupportedMigration
deriving DecidableEq

/-- The allocator state: the fields of `State` (from `internal.h`)
that `malloc.cpp` reads and writes, plus the ambient
`active_stream`, the LLVM vector width, the raw-allocator oracle and
the event trace.  Modelled from the spec where the header is absent:
`alloc_free` is the GlobalCache, `alloc_used` the LiveTable,
`alloc_unmap` the UnmapQueue, `devices` the device registry. -/
structure JitState where
  alloc_free : BucketMap
  alloc_used : List (Ptr × AllocInfo)
  alloc_usage : KindCounts
  alloc_watermark : KindCounts
  alloc_unmap : List (Bool × Ptr)
  active_stream : Option Stream
  devices : List Int
  vector_width : Nat
  raw : List (Option Ptr)
  trim_warned : Bool
  events : List Event
deriving DecidableEq

/-- Decidable equality for `Except` results, so that concrete runs of
the model can be checked by `decide`. -/
def exceptDecEq {ε α : Type} [DecidableEq ε] [DecidableEq α] :
    (a b : Except ε α) → Decidable (a = b)
  | .error e, .error f =>
    if h : e = f then .isTrue (by rw [h])
    else .isFalse (by intro hh; cases hh; exact h rfl)
  | .error _, .ok _ => .isFalse (by intro h; cases h)
  | .ok _, .error _ => .isFalse (by intro h; cases h)
  | .ok a, .ok b =>
    if h : a = b then .isTrue (by rw [h])
    else .isFalse (by intro hh; cases hh; exact h rfl)

instance {ε α : Type} [DecidableEq ε] [DecidableEq α] : DecidableEq (Except ε α) :=
  exceptDecEq

/-! ### Association-list primitives for the bucket maps and the LiveTable -/

/-- Lookup in a bucket map (`map.find(ai)`). -/
def bucketFind (b : BucketMap) (ai : AllocInfo) : Option (List Ptr) :=
  match b with
  | [] => none
  | (k, v) :: rest => if k = ai then some v else bucketFind rest ai

/-- Replace the value stored for a key that is present (used after a
`pop_back` on the found stack). -/
def bucketSet (b : BucketMap) (ai : AllocInfo) (v : List Ptr) : BucketMap :=
  match b with
  | [] => []
  | (k, w) :: rest => if k = ai then (k, v) :: rest else (k, w) :: bucketSet rest ai v

/-- `map[ai].push_back(p)`: append to the stack of an existing key, or
insert the key with a singleton stack. -/
def bucketPush (b : BucketMap) (ai : AllocInfo) (p : Ptr) : BucketMap :=
  match b with
  | [] => [(ai, [p])]
  | (k, v) :: rest => if k = ai then (k, v ++ [p]) :: rest else (k, v) :: bucketPush rest ai p

/-- `target.insert(target.end(), l.begin(), l.end())` on `map[ai]`:
append a whole list to the stack of a key, inserting the key if
absent. -/
def bucketConcat (b : BucketMap) (ai : AllocInfo) (l : List Ptr) : BucketMap :=
  match b with
  | [] => [(ai, l)]
  | (k, v) :: rest => if k = ai then (k, v ++ l) :: rest else (k, v) :: bucketConcat rest ai l

/-- LiveTable lookup (`state.alloc_used.find(ptr)`). -/
def usedFind (u : List (Ptr × AllocInfo)) (p : Ptr) : Option AllocInfo :=
  match u with
  | [] => none
  | (q, ai) :: rest => if q = p then some ai else usedFind rest p

/-- `state.alloc_used.emplace(ptr, ai)`: inserts only when the key is
absent. -/
def usedEmplace (u : List (Ptr × AllocInfo)) (p : Ptr) (ai : AllocInfo) :
    List (Ptr × AllocInfo) :=
  match usedFind u p with
  | some _ => u
  | none => (p, ai) :: u

/-- `state.alloc_used.erase(it)`: removes the (first) entry of a key. -/
def usedErase (u : List (Ptr × AllocInfo)) (p : Ptr) : List (Ptr × AllocInfo) :=
  match u with
  | [] => []
  | (q, ai) :: rest => if q = p then rest else (q, ai) :: usedErase rest p

/-- `it.value().type = type` in `jit_malloc_migrate`: rewrite the kind
field of the entry of `p` in place. -/
def usedSetType (u : List (Ptr × AllocInfo)) (p : Ptr) (t : AllocType) :
    List (Ptr × AllocInfo) :=
  match u with
  | [] => []
  | (q, ai) :: rest =>
    if q = p then (q, { ai with type := t }) :: rest
    else (q, ai) :: usedSetType rest p t

/-- `list.back()` / `list.pop_back()` combined. -/
def popBack (l : List Ptr) : Option (Ptr × List Ptr) :=
  match l.getLast? with
  | some p => some (p, l.dropLast)
  | none => none

/-- The push of `jit_free` onto the stream's head chain node, creating
the node lazily (`chain = stream->release_chain = new ReleaseChain()`
when null). -/
def chainPushHead (c : Chain) (ai : AllocInfo) (p : Ptr) : Chain :=
  match c with
  | [] => [bucketPush [] ai p]
  | node :: rest => bucketPush node ai p :: rest

/-! ### Size rounding -/

/-- `round_pow2(size_t x)` from `malloc.cpp`: decrement, smear the
bits right, increment — all in `size_t` arithmetic. -/
def round_pow2 (x : Nat) : Nat :=
  let x := (x + (two64 - 1)) % two64
  let x := x ||| (x >>> 1)
  let x := x ||| (x >>> 2)
  let x := x ||| (x >>> 4)
  let x := x ||| (x >>> 8)
  let x := x ||| (x >>> 16)
  let x := x ||| (x >>> 32)
  (x + 1) % two64

/-- The size computation at the top of `jit_malloc`: round up to a
multiple of 64 bytes (or of `vector_width * sizeof(double)` for
Host/HostAsync when the vector width is at least 16 lanes), then to
the next power of two. -/
def jit_malloc_round (vw : Nat) (t : AllocType) (size : Nat) : Nat :=
  let size :=
    if (t ≠ AllocType.Host ∧ t ≠ AllocType.HostAsync) ∨ vw < 16 then
      (size + 63) % two64 / 64 * 64
    else
      let packet_size := vw * 8
      (size + packet_size - 1) % two64 / packet_size * packet_size
  round_pow2 size

/-! ### jit_free -/

/-- One step of the raw-allocator oracle: consume the next response
(`none` = the raw allocator refused with out-of-memory), recording the
attempt in the trace.  An exhausted oracle refuses. -/
def rawAttempt (t : AllocType) (sz : Nat) (s : JitState) : Option Ptr × JitState :=
  match s.raw with
  | [] => (none, { s with events := s.events ++ [Event.rawAllocAttempt t sz none] })
  | r :: rest =>
    (r, { s with raw := rest, events := s.events ++ [Event.rawAllocAttempt t sz r] })

/-- The drain loop shared by `jit_free` and `jit_malloc_trim`: for
every `(also_free, p)` taken from the unmap queue, unregister `p` from
the driver and, when `also_free`, free it via `freeFn`. -/
def jit_free_unmap (freeFn : Ptr → JitState → Except Error Unit × JitState) :
    List (Bool × Ptr) → JitState → JitState
  | [], s => s
  | (b, p) :: rest, s =>
    let s := { s with events := s.events ++ [Event.hostUnregister p] }
    let s := if b then (freeFn p s).2 else s
    jit_free_unmap freeFn rest s

/-- `jit_free(void *ptr)`, with recursion depth bounded by a fuel
argument.  The recursive calls of the source (`jit_free(kv.second)` on
drained unmap entries) run on a state whose unmap queue was already
swapped out, so a fuel of `alloc_unmap.length + 1` always suffices;
the fuel-0 case is unreachable under that wrapper. -/
def jit_free_go : Nat → Ptr → JitState → Except Error Unit × JitState
  | 0, _, s => (.ok (), s)
  | fuel + 1, ptr, s =>
    if ptr = 0 then (.ok (), s)
    else
      match usedFind s.alloc_used ptr with
      | none => (.error .UnknownPointer, s)
      | some ai =>
        let s :=
          if ai.type = AllocType.Host then
            { s with alloc_free := bucketPush s.alloc_free ai ptr }
          else
            match s.active_stream with
            | some st =>
              if (!(ai.type == AllocType.HostAsync)) = st.cuda then
                -- standard case: free asynchronously onto the head chain node
                let chain := chainPushHead st.release_chain ai ptr
                let s := { s with active_stream := some { st with release_chain := chain } }
                if st.cuda then
                  let drained := s.alloc_unmap
                  let s := { s with alloc_unmap := [] }
                  jit_free_unmap (jit_free_go fuel) drained s
                else s
              else
                { s with events := s.events ++ [Event.syncAllDevices],
                         alloc_free := bucketPush s.alloc_free ai ptr }
            | none =>
              { s with events := s.events ++ [Event.syncAllDevices],
                       alloc_free := bucketPush s.alloc_free ai ptr }
        (.ok (),
         { s with
           alloc_usage :=
             s.alloc_usage.set ai.type
               ((s.alloc_usage.get ai.type + (two64 - ai.size % two64)) % two64),
           alloc_used := usedErase s.alloc_used ptr })

/-- `jit_free`: the fuel wrapper (see `jit_free_go`). -/
def jit_free (ptr : Ptr) (s : JitState) : Except Error Unit × JitState :=
  jit_free_go (s.alloc_unmap.length + 1) ptr s

/-! ### jit_malloc_trim -/

/-- The raw frees performed by `jit_malloc_trim` on the drained global
cache, as trace events (host / pinned / device frees are all external
calls). -/
def trimFreeEvents : BucketMap → List Event
  | [] => []
  | (ai, ptrs) :: rest => ptrs.map (Event.rawFree ai.type) ++ trimFreeEvents rest

/-- The reclamation part of `jit_malloc_trim`: move the global cache
and the unmap queue out of the shared state, drain the unmap queue,
then return every cached pointer to its raw allocator. -/
def jit_malloc_trim_body (s : JitState) : JitState :=
  let fr := s.alloc_free
  let um := s.alloc_unmap
  let s := { s with alloc_free := [], alloc_unmap := [] }
  let s := jit_free_unmap jit_free um s
  { s with events := s.events ++ trimFreeEvents fr }

/-- `jit_malloc_trim(bool warn)`: warn once (sticky flag), then
reclaim all cached memory. -/
def jit_malloc_trim (warn : Bool) (s : JitState) : JitState :=
  let s := { s with events := s.events ++ [Event.trimCalled warn] }
  let s :=
    if warn && !s.trim_warned then
      { s with events := s.events ++ [Event.warnOOM], trim_warned := true }
    else s
  jit_malloc_trim_body s

/-- Modelled from the spec: the default value of the `warn` parameter
of `jit_malloc_trim` is declared in `internal.h`, which is not among
the sources; the spec states that the allocation-failure path calls
`trim` with `warn=true`. -/
def jit_malloc_trim_default_warn : Bool := true

/-! ### jit_malloc -/

/-- Register the fresh pointer and update the per-kind usage and
watermark counters (the tail of `jit_malloc`). -/
def malloc_finish (ai : AllocInfo) (p : Ptr) (s : JitState) :
    Except Error Ptr × JitState :=
  let s := { s with alloc_used := usedEmplace s.alloc_used p ai }
  let u := (s.alloc_usage.get ai.type + ai.size) % two64
  let w := max (s.alloc_watermark.get ai.type) u
  (.ok p,
   { s with
     alloc_usage := s.alloc_usage.set ai.type u,
     alloc_watermark := s.alloc_watermark.set ai.type w })

/-- The per-stream release-chain walk of `jit_malloc`: pop from the
first node whose bucket for `ai` is non-empty. -/
def chainPop (ai : AllocInfo) : Chain → Option (Ptr × Chain)
  | [] => none
  | node :: rest =>
    match bucketFind node ai with
    | some l =>
      match popBack l with
      | some (p, l2) => some (p, bucketSet node ai l2 :: rest)
      | none =>
        match chainPop ai rest with
        | some (p, rest2) => some (p, node :: rest2)
        | none => none
    | none =>
      match chainPop ai rest with
      | some (p, rest2) => some (p, node :: rest2)
      | none => none

/-- The global-cache lookup of `jit_malloc`: pop from
`state.alloc_free[ai]` when present and non-empty. -/
def globalPop (ai : AllocInfo) (free : BucketMap) : Option (Ptr × BucketMap) :=
  match bucketFind free ai with
  | some l =>
    match popBack l with
    | some (p, l2) => some (p, bucketSet free ai l2)
    | none => none
  | none => none

/-- Result of the phase of `jit_malloc` that runs under the malloc
lock: an error, a cache hit (with the updated state), or a miss that
falls through to the raw allocator. -/
inductive LookupResult where
  | err (e : Error)
  | hit (ai : AllocInfo) (p : Ptr) (s : JitState)
  | miss (ai : AllocInfo) (s : JitState)
deriving DecidableEq

/-- The stream checks, local (per-stream) recycle and global recycle
of `jit_malloc`. -/
def jit_malloc_lookup (t : AllocType) (size : Nat) (s : JitState) : LookupResult :=
  if t = AllocType.Device ∨ t = AllocType.HostAsync then
    match s.active_stream with
    | none => .err .NoActiveStream
    | some st =>
      if (!st.cuda) = (t == AllocType.Device) then .err .WrongBackend
      else
        let ai : AllocInfo := ⟨t, if st.cuda then st.device else 0, size⟩
        match chainPop ai st.release_chain with
        | some (p, chain2) =>
          .hit ai p { s with active_stream := some { st with release_chain := chain2 } }
        | none =>
          match globalPop ai s.alloc_free with
          | some (p, free2) => .hit ai p { s with alloc_free := free2 }
          | none => .miss ai s
  else
    let ai : AllocInfo := ⟨t, 0, size⟩
    match globalPop ai s.alloc_free with
    | some (p, free2) => .hit ai p { s with alloc_free := free2 }
    | none => .miss ai s

/-- The raw-allocation path of `jit_malloc`: attempt, on refusal trim
and retry exactly once, and report out-of-memory when the retry also
refuses. -/
def jit_malloc_raw (ai : AllocInfo) (s : JitState) : Except Error Ptr × JitState :=
  match (rawAttempt ai.type ai.size s).1 with
  | some p => malloc_finish ai p (rawAttempt ai.type ai.size s).2
  | none =>
    match (rawAttempt ai.type ai.size (jit_malloc_trim jit_malloc_trim_default_warn
        (rawAttempt ai.type ai.size s).2)).1 with
    | some p =>
      malloc_finish ai p
        (rawAttempt ai.type ai.size (jit_malloc_trim jit_malloc_trim_default_warn
          (rawAttempt ai.type ai.size s).2)).2
    | none =>
      (.error .OutOfMemory,
       (rawAttempt ai.type ai.size (jit_malloc_trim jit_malloc_trim_default_warn
         (rawAttempt ai.type ai.size s).2)).2)

/-- `jit_malloc(AllocType type, size_t size)` (TBB-enabled build, so
`HostAsync` is not demoted to `Host`). -/
def jit_malloc (t : AllocType) (size : Nat) (s : JitState) :
    Except Error Ptr × JitState :=
  if size = 0 then (.ok 0, s)
  else
    let size := jit_malloc_round s.vector_width t size
    match jit_malloc_lookup t size s with
    | .err e => (.error e, s)
    | .hit ai p s2 => malloc_finish ai p s2
    | .miss ai s2 => jit_malloc_raw ai s2

/-! ### jit_free_flush and its callback -/

/-- `n_dealloc` in `jit_free_flush`: the number of pending pointers in
the head chain node. -/
def nodeSize (node : ChainNode) : Nat :=
  (node.map (fun kv => kv.2.length)).sum

/-- `jit_free_flush()`: when the head chain node holds pending frees,
install a fresh empty head above it and enqueue the reclamation
callback on the stream (CUDA host function or worker-pool task). -/
def jit_free_flush (s : JitState) : JitState :=
  match s.active_stream with
  | none => s
  | some st =>
    match st.release_chain with
    | [] => s
    | node :: rest =>
      if node = [] then s
      else if nodeSize node = 0 then s
      else
        { s with
          active_stream := some { st with release_chain := [] :: node :: rest },
          events := s.events ++ [Event.enqueueFlushCallback] }

/-- The loop of the flush callback: append every `(AllocInfo, stack)`
pair of the sealed node to the matching global-cache bucket. -/
def bucketAppendAll (free : BucketMap) : ChainNode → BucketMap
  | [] => free
  | (ai, ptrs) :: rest => bucketAppendAll (bucketConcat free ai ptrs) rest

/-- The callback enqueued by `jit_free_flush`, with its context
(`chain_new`) being the head node that the flush being modelled
installed: it folds `chain_new->next`'s buckets into the global cache,
deletes that node, and nulls `chain_new->next`. -/
def flush_callback (s : JitState) : JitState :=
  match s.active_stream with
  | none => s
  | some st =>
    match st.release_chain with
    | chain0 :: chain1 :: _rest =>
      { s with
        alloc_free := bucketAppendAll s.alloc_free chain1,
        active_stream := some { st with release_chain := [chain0] } }
    | _ => s

/-! ### jit_malloc_migrate -/

/-- `jit_malloc_migrate(void *ptr, AllocType type, int move)`
(TBB-enabled build). -/
def jit_malloc_migrate (ptr : Ptr) (t : AllocType) (move : Bool) (s : JitState) :
    Except Error Ptr × JitState :=
  match s.active_stream with
  | none => (.error .NoActiveStream, s)
  | some st =>
    match usedFind s.alloc_used ptr with
    | none => (.error .UnknownPointer, s)
    | some ai =>
      if ((ai.type = AllocType.Host ∧ t = AllocType.HostAsync) ∨
          (ai.type = AllocType.HostAsync ∧ t = AllocType.Host)) ∧ move = true then
        -- in-place rewrite of the LiveTable entry's kind
        (.ok ptr, { s with alloc_used := usedSetType s.alloc_used ptr t })
      else if ai.type = t ∧ (t ≠ AllocType.Device ∨ ai.device = st.device) then
        (.ok ptr, s)
      else if st.cuda = false then (.error .WrongBackend, s)
      else
        match jit_malloc t ai.size s with
        | (.error e, s) => (.error e, s)
        | (.ok ptr_new, s) =>
          if t = AllocType.HostAsync ∨ ai.type = AllocType.HostAsync then
            (.error .UnsupportedMigration, s)
          else if ai.type = AllocType.Host then
            -- host → GPU-accessible
            let s := { s with events := s.events ++
              [Event.hostRegister ptr, Event.memcpyAsync ptr_new ptr ai.size,
               Event.enqueueUnmapRecord move ptr] }
            (.ok ptr_new, s)
          else if t = AllocType.Host then
            -- GPU-accessible → host
            let s := { s with events := s.events ++
              [Event.hostRegister ptr_new, Event.memcpyAsync ptr_new ptr ai.size,
               Event.enqueueUnmapRecord false ptr_new] }
            if move then
              let s := (jit_free ptr s).2
              (.ok ptr_new, s)
            else (.ok ptr_new, s)
          else
            -- GPU-accessible → GPU-accessible
            let s := { s with events := s.events ++
              [Event.memcpyAsync ptr_new ptr ai.size] }
            if move then
              let s := (jit_free ptr s).2
              (.ok ptr_new, s)
            else (.ok ptr_new, s)

/-! ### jit_malloc_prefetch -/

/-- The C cast `(size_t) device` of an `int`. -/
def castSizeT (i : Int) : Nat := (i % (18446744073709551616 : Int)).toNat

/-- `CU_DEVICE_CPU` from the CUDA headers (value `-1`). -/
def CU_DEVICE_CPU : Int := -1

/-- `jit_malloc_prefetch(void *ptr, int device)`. -/
def jit_malloc_prefetch (ptr : Ptr) (device : Int) (s : JitState) :
    Except Error Unit × JitState :=
  match s.active_stream with
  | none => (.error .NoActiveStream, s)
  | some st =>
    if st.cuda = false then (.error .NoActiveStream, s)
    else
      let deviceR : Except Error Int :=
        if device = -1 then .ok CU_DEVICE_CPU
        else if s.devices.length ≤ castSizeT device then .error .InvalidDeviceId
        else .ok (s.devices.getD (castSizeT device) 0)
      match deviceR with
      | .error e => (.error e, s)
      | .ok dev =>
        match usedFind s.alloc_used ptr with
        | none => (.error .UnknownPointer, s)
        | some ai =>
          if ai.type ≠ AllocType.Managed ∧ ai.type ≠ AllocType.ManagedReadMostly then
            (.error .InvalidPrefetchKind, s)
          else if dev = -2 then
            (.ok (),
             { s with events := s.events ++
                 s.devices.map (fun d => Event.prefetchAsync ptr ai.size d) })
          else
            (.ok (),
             { s with events := s.events ++ [Event.prefetchAsync ptr ai.size dev] })

/-! ### Derived notions used by the claims -/

/-- Sum of the sizes of the LiveTable entries of one kind. -/
def usedSizeSum (k : AllocType) : List (Ptr × AllocInfo) → Nat
  | [] => 0
  | (_, ai) :: rest => (if ai.type = k then ai.size else 0) + usedSizeSum k rest

/-- The spec's usage invariant: for each kind `k`,
`alloc_usage[k] = Σ size of LiveTable entries with kind k`. -/
def usageInvariant (s : JitState) : Prop :=
  ∀ k : AllocType, s.alloc_usage.get k = usedSizeSum k s.alloc_used

instance (s : JitState) : Decidable (usageInvariant s) :=
  inferInstanceAs (Decidable (∀ k : AllocType, s.alloc_usage.get k = usedSizeSum k s.alloc_used))

/-- The kinds that may legitimately sit in a release chain of a stream
with backend flag `cuda`, as enforced by the branch condition of
`jit_free`: never `Host`, and `HostAsync` exactly on a CPU-worker
stream. -/
def kindOK (cuda : Bool) (t : AllocType) : Prop :=
  t ≠ AllocType.Host ∧ (t = AllocType.HostAsync ↔ cuda = false)

instance (cuda : Bool) (t : AllocType) : Decidable (kindOK cuda t) :=
  inferInstanceAs (Decidable (_ ∧ _))

/-- All entries of all nodes of a chain have allowed kinds. -/
def chainKindsOK (cuda : Bool) (c : Chain) : Prop :=
  ∀ node ∈ c, ∀ kv ∈ node, kindOK cuda (kv : AllocInfo × List Ptr).1.type

instance (cuda : Bool) (c : Chain) : Decidable (chainKindsOK cuda c) :=
  inferInstanceAs (Decidable (∀ node ∈ c, ∀ kv ∈ node, kindOK cuda _))

/-- The chain of the active stream (when there is one) has only
allowed kinds. -/
def streamChainsOK (s : JitState) : Prop :=
  Option.elim s.active_stream True fun st => chainKindsOK st.cuda st.release_chain

instance (s : JitState) : Decidable (streamChainsOK s) :=
  match h : s.active_stream with
  | none => .isTrue (by unfold streamChainsOK; rw [h]; exact trivial)
  | some st =>
    decidable_of_iff (chainKindsOK st.cuda st.release_chain)
      (by unfold streamChainsOK; rw [h]; exact Iff.rfl)

/-- Event counters used to state the trim/retry claim. -/
def countTrim (l : List Event) : Nat :=
  l.countP fun e => match e with | .trimCalled _ => true | _ => false

def countWarn (l : List Event) : Nat :=
  l.countP fun e => match e with | .warnOOM => true | _ => false

def countAttempts (l : List Event) : Nat :=
  l.countP fun e => match e with | .rawAllocAttempt _ _ _ => true | _ => false

/-! ### Concrete states used by counterexamples, code-bug evaluations
and witnesses -/

/-- A CUDA stream on device 0 with an empty release chain. -/
def cudaStream : Stream := ⟨true, 0, []⟩

/-- A baseline state: empty caches and tables, an active CUDA stream,
one registered device, vector width 8, a two-response raw oracle. -/
def baseState : JitState :=
  { alloc_free := [], alloc_used := [], alloc_usage := KindCounts.zero,
    alloc_watermark := KindCounts.zero, alloc_unmap := [],
    active_stream := some cudaStream, devices := [0], vector_width := 8,
    raw := [some 1000, some 2000], trim_warned := false, events := [] }

/-- State for the C1 failing input: one live `Host` allocation of 64
bytes and a CPU-worker active stream. -/
def migrateBugState : JitState :=
  { baseState with
    active_stream := some ⟨false, 0, []⟩,
    alloc_used := [(5, ⟨AllocType.Host, 0, 64⟩)],
    alloc_usage := KindCounts.zero.set AllocType.Host 64 }

/-- State for the C2 counterexample: one live `HostPinned` allocation
and an active CUDA stream. -/
def pinnedFreeState : JitState :=
  { baseState with
    alloc_used := [(7, ⟨AllocType.HostPinned, 0, 64⟩)],
    alloc_usage := KindCounts.zero.set AllocType.HostPinned 64 }

/-- State for the C4 code-bug evaluation: one live `Managed`
allocation, an active CUDA stream and a non-empty device registry. -/
def prefetchBugState : JitState :=
  { baseState with
    alloc_used := [(9, ⟨AllocType.Managed, 0, 64⟩)],
    alloc_usage := KindCounts.zero.set AllocType.Managed 64 }

/-- State for C10: one live `Device` allocation and an active CUDA
stream. -/
def migrateDevState : JitState :=
  { baseState with
    alloc_used := [(5, ⟨AllocType.Device, 0, 64⟩)],
    alloc_usage := KindCounts.zero.set AllocType.Device 64 }

/-- State for the C10 amended witness: one live `HostAsync` allocation
and an active CUDA stream. -/
def migrateHaState : JitState :=
  { baseState with
    alloc_used := [(5, ⟨AllocType.HostAsync, 0, 64⟩)],
    alloc_usage := KindCounts.zero.set AllocType.HostAsync 64 }

/-- State for the C3 witness: no stream, empty caches, an oracle that
refuses once and then yields pointer 777. -/
def oomState : JitState :=
  { baseState with active_stream := none, raw := [none, some 777] }

/-- State for the C7 witness: the head chain node of the CUDA stream
holds two pending Device pointers. -/
def flushState : JitState :=
  { baseState with
    active_stream := some ⟨true, 0, [[(⟨AllocType.Device, 0, 64⟩, [11, 12])]]⟩ }

/-- State for the C8 witness: a live `Host` allocation and a
CPU-worker stream. -/
def hostHaState : JitState :=
  { baseState with
    active_stream := some ⟨false, 0, []⟩,
    alloc_used := [(5, ⟨AllocType.Host, 0, 128⟩)] }

/-! ### Claim C9 -/

/-- Claim C9: for every kind and any state — whatever the active
stream or backend — `jit_malloc(kind, 0)` returns the null pointer and
leaves the entire allocator state (LiveTable, usage, watermarks,
caches, trace) unchanged; in particular no `AllocInfo` of size 0 is
created and nothing is registered. -/
theorem jit_malloc_zero_size (t : AllocType) (s : JitState) :
    jit_malloc t 0 s = (.ok 0, s) := rfl

/-! ### Claim C8 -/

/-- `usedSetType` rewrites exactly the kind field of the entry. -/
theorem usedFind_usedSetType (u : List (Ptr × AllocInfo)) (p : Ptr)
    (t : AllocType) (ai : AllocInfo) (h : usedFind u p = some ai) :
    usedFind (usedSetType u p t) p = some { ai with type := t } := by
  induction u with
  | nil => simp [usedFind] at h
  | cons kv rest ih =>
    obtain ⟨q, ai2⟩ := kv
    by_cases hq : q = p
    · subst hq
      simp [usedFind, usedSetType] at h ⊢
      rw [h]
      exact ⟨rfl, rfl⟩
    · simp [usedFind, usedSetType, hq] at h ⊢
      exact ih h

/-- Claim C8: with the CPU-worker-pool backend compiled in and any
active stream, migrating a live `Host` (resp. `HostAsync`) pointer to
`HostAsync` (resp. `Host`) with `move=true` returns the same pointer,
rewrites the kind of its LiveTable entry in place, and changes nothing
else — no allocation, no copy, no free (the caches, counters, oracle
and event trace of the result equal the input's). -/
theorem jit_malloc_migrate_inplace (s : JitState) (st : Stream) (p : Ptr)
    (ai : AllocInfo) (t : AllocType)
    (hst : s.active_stream = some st)
    (hfind : usedFind s.alloc_used p = some ai)
    (hpair : (ai.type = AllocType.Host ∧ t = AllocType.HostAsync) ∨
             (ai.type = AllocType.HostAsync ∧ t = AllocType.Host)) :
    jit_malloc_migrate p t true s =
      (.ok p, { s with alloc_used := usedSetType s.alloc_used p t }) ∧
    usedFind (usedSetType s.alloc_used p t) p = some { ai with type := t } := by
  constructor
  · unfold jit_malloc_migrate
    simp only [hst, hfind]
    have hcond : ((ai.type = AllocType.Host ∧ t = AllocType.HostAsync) ∨
        (ai.type = AllocType.HostAsync ∧ t = AllocType.Host)) ∧ True :=
      ⟨hpair, trivial⟩
    rw [if_pos hcond]
  · exact usedFind_usedSetType _ _ _ _ hfind

/-- Witness for C8 at a concrete input. -/
theorem jit_malloc_migrate_inplace_witness :
    jit_malloc_migrate 5 AllocType.HostAsync true hostHaState =
      (.ok 5, { hostHaState with
                alloc_used := usedSetType hostHaState.alloc_used 5 AllocType.HostAsync }) ∧
    usedFind (usedSetType hostHaState.alloc_used 5 AllocType.HostAsync) 5 =
      some ⟨AllocType.HostAsync, 0, 128⟩ :=
  jit_malloc_migrate_inplace hostHaState ⟨false, 0, []⟩ 5
    ⟨AllocType.Host, 0, 128⟩ AllocType.HostAsync (by decide) (by decide)
    (Or.inl ⟨rfl, rfl⟩)

/-! ### Claim C1 -/

/-- Claim C1 (code-bug evaluation): the usage invariant
`alloc_usage[k] = Σ size of LiveTable entries of kind k` holds in
`migrateBugState`, yet after the in-place Host→HostAsync kind rewrite
performed by `jit_malloc_migrate(p, HostAsync, move=true)` it no
longer does: the rewrite moves the 64-byte entry to kind `HostAsync`
in the LiveTable without transferring the 64 bytes between
`alloc_usage[Host]` and `alloc_usage[HostAsync]`. -/
theorem jit_malloc_migrate_usage_bug :
    usageInvariant migrateBugState ∧
    (jit_malloc_migrate 5 AllocType.HostAsync true migrateBugState).1 = .ok 5 ∧
    ¬ usageInvariant (jit_malloc_migrate 5 AllocType.HostAsync true migrateBugState).2 := by
  refine ⟨by decide, by decide, fun h => ?_⟩
  have h1 := h AllocType.HostAsync
  revert h1
  decide

/-! ### Claim C4 -/

/-- Claim C4 (code-bug evaluation): prefetching a live `Managed`
buffer to `device = -2` (the documented broadcast-to-all-GPUs value)
does not broadcast: the device-registry bounds check casts `-2` to
`size_t` and raises the invalid-device-ID error before the broadcast
branch can run, leaving the state unchanged. The -1 (CPU) and plain
index cases behave as documented. -/
theorem jit_malloc_prefetch_broadcast_bug :
    jit_malloc_prefetch 9 (-2) prefetchBugState =
      (.error .InvalidDeviceId, prefetchBugState) ∧
    jit_malloc_prefetch 9 (-1) prefetchBugState =
      (.ok (), { prefetchBugState with
                 events := [Event.prefetchAsync 9 64 (-1)] }) ∧
    jit_malloc_prefetch 9 0 prefetchBugState =
      (.ok (), { prefetchBugState with
                 events := [Event.prefetchAsync 9 64 0] }) := by
  refine ⟨by decide, by decide, by decide⟩

/-! ### Claim C2: counterexample -/

/-- Claim C2 (counterexample): `jit_free` of a live `HostPinned`
pointer while a GPU-backend stream is active places the pointer in the
stream's ReleaseChain — `HostPinned` is a globally-accessible kind,
so the claimed invariant (only `Device` of the stream's device or
`HostAsync` ever enter a chain) is violated by this very operation. -/
theorem jit_free_hostpinned_in_chain :
    (jit_free 7 pinnedFreeState).1 = .ok () ∧
    (jit_free 7 pinnedFreeState).2.active_stream =
      some ⟨true, 0, [[(⟨AllocType.HostPinned, 0, 64⟩, [7])]]⟩ := by
  exact ⟨by decide, by decide⟩

/-! ### Claim C2: the invariant that actually holds -/

theorem streamChainsOK_some (s : JitState) (st : Stream)
    (hst : s.active_stream = some st) :
    streamChainsOK s ↔ chainKindsOK st.cuda st.release_chain := by
  unfold streamChainsOK
  rw [hst]
  exact Iff.rfl

theorem streamChainsOK_of_chain (s : JitState) (st : Stream)
    (hst : s.active_stream = some st)
    (hc : chainKindsOK st.cuda st.release_chain) :
    streamChainsOK s := by
  rw [streamChainsOK_some s st hst]
  exact hc

theorem mem_bucketPush (node : BucketMap) (ai : AllocInfo) (p : Ptr)
    (P : AllocInfo → Prop)
    (hnode : ∀ kv ∈ node, P (kv : AllocInfo × List Ptr).1)
    (hai : P ai) :
    ∀ kv ∈ bucketPush node ai p, P (kv : AllocInfo × List Ptr).1 := by
  induction node with
  | nil =>
    intro kv hkv
    simp only [bucketPush, List.mem_singleton] at hkv
    rw [hkv]
    exact hai
  | cons hd rest ih =>
    obtain ⟨k, v⟩ := hd
    have hhd : P k := hnode (k, v) (List.mem_cons_self _ _)
    have hrest : ∀ kv ∈ rest, P (kv : AllocInfo × List Ptr).1 :=
      fun kv hkv => hnode kv (List.mem_cons_of_mem _ hkv)
    intro kv hkv
    by_cases hk : k = ai
    · rw [bucketPush, if_pos hk] at hkv
      rcases List.mem_cons.1 hkv with h1 | h1
      · rw [h1]; exact hhd
      · exact hrest kv h1
    · rw [bucketPush, if_neg hk] at hkv
      rcases List.mem_cons.1 hkv with h1 | h1
      · rw [h1]; exact hhd
      · exact ih hrest kv h1

theorem chainKindsOK_chainPushHead (cuda : Bool) (c : Chain) (ai : AllocInfo)
    (p : Ptr) (hc : chainKindsOK cuda c) (hai : kindOK cuda ai.type) :
    chainKindsOK cuda (chainPushHead c ai p) := by
  cases c with
  | nil =>
    intro node hnode kv hkv
    simp only [chainPushHead, List.mem_singleton] at hnode
    subst hnode
    simp only [bucketPush, List.mem_singleton] at hkv
    rw [hkv]
    exact hai
  | cons node rest =>
    intro node2 hnode2 kv hkv
    rcases List.mem_cons.1 hnode2 with h1 | h1
    · subst h1
      exact mem_bucketPush node ai p (fun a => kindOK cuda a.type)
        (fun kv2 hkv2 => hc node (List.mem_cons_self _ _) kv2 hkv2) hai kv hkv
    · exact hc node2 (List.mem_cons_of_mem _ h1) kv hkv

theorem streamOK_free_unmap
    (freeFn : Ptr → JitState → Except Error Unit × JitState)
    (hf : ∀ p s, streamChainsOK s → streamChainsOK (freeFn p s).2) :
    ∀ (l : List (Bool × Ptr)) (s : JitState), streamChainsOK s →
      streamChainsOK (jit_free_unmap freeFn l s) := by
  intro l
  induction l with
  | nil => intro s h; exact h
  | cons bp rest ih =>
    intro s h
    obtain ⟨b, p⟩ := bp
    have h1 : streamChainsOK
        { s with events := s.events ++ [Event.hostUnregister p] } := h
    cases b with
    | false => exact ih _ h1
    | true => exact ih _ (hf p _ h1)

theorem streamOK_free_go : ∀ (fuel : Nat) (ptr : Ptr) (s : JitState),
    streamChainsOK s → streamChainsOK (jit_free_go fuel ptr s).2 := by
  intro fuel
  induction fuel with
  | zero => intro ptr s h; exact h
  | succ fuel ih =>
    intro ptr s h
    unfold jit_free_go
    split
    · exact h
    · split
      · exact h
      · rename_i ai hfind
        split
        · exact h
        · rename_i hhost
          split
          · rename_i st hst
            split
            · rename_i hcond
              have hkind : kindOK st.cuda ai.type := by
                refine ⟨hhost, ?_⟩
                cases hAty : (ai.type == AllocType.HostAsync) with
                | true =>
                  have he : ai.type = AllocType.HostAsync := by
                    exact of_decide_eq_true hAty
                  rw [← hcond, hAty]
                  simp [he]
                | false =>
                  have hne : ¬ ai.type = AllocType.HostAsync := by
                    exact of_decide_eq_false hAty
                  rw [← hcond, hAty]
                  simp [hne]
              have hchainOK : chainKindsOK st.cuda
                  (chainPushHead st.release_chain ai ptr) :=
                chainKindsOK_chainPushHead st.cuda st.release_chain ai ptr
                  ((streamChainsOK_some s st hst).1 h) hkind
              split
              · exact streamOK_free_unmap (jit_free_go fuel)
                  (fun p s2 hs => ih p s2 hs) _ _
                  (streamChainsOK_of_chain _
                    { st with release_chain := chainPushHead st.release_chain ai ptr }
                    rfl hchainOK)
              · exact streamChainsOK_of_chain _
                  { st with release_chain := chainPushHead st.release_chain ai ptr }
                  rfl hchainOK
            · exact h
          · exact h

/-- Claim C2 (amended): the release-chain kind invariant that `jit_free`
actually maintains — every entry of every node of the active stream's
ReleaseChain has kind ≠ `Host`, with kind `HostAsync` exactly when the
stream has the CPU-worker backend (so on a GPU-backend stream the kinds
`Device`, `HostPinned`, `Managed` and `ManagedReadMostly` are all
admissible, with no constraint tying a `Device` entry's device to the
stream's).  `jit_free`, including its recursive frees of drained unmap
entries, preserves this invariant. -/
theorem jit_free_chain_kinds (ptr : Ptr) (s : JitState)
    (h : streamChainsOK s) : streamChainsOK (jit_free ptr s).2 :=
  streamOK_free_go _ ptr s h

/-- Witness for the amended C2 at a concrete input (the very input of
the counterexample: a HostPinned free on a GPU stream). -/
theorem jit_free_chain_kinds_witness :
    streamChainsOK pinnedFreeState ∧
    streamChainsOK (jit_free 7 pinnedFreeState).2 :=
  ⟨by decide, jit_free_chain_kinds 7 pinnedFreeState (by decide)⟩

/-! ### Claim C7 -/

theorem bucketFind_bucketConcat_self (b : BucketMap) (ai : AllocInfo) (l : List Ptr) :
    bucketFind (bucketConcat b ai l) ai = some ((bucketFind b ai).getD [] ++ l) := by
  induction b with
  | nil => simp [bucketConcat, bucketFind]
  | cons kv rest ih =>
    obtain ⟨k, v⟩ := kv
    by_cases hk : k = ai
    · subst hk
      simp [bucketConcat, bucketFind]
    · simp [bucketConcat, bucketFind, hk, ih]

theorem bucketFind_bucketConcat_ne (b : BucketMap) (ai ai2 : AllocInfo)
    (l : List Ptr) (h : ai2 ≠ ai) :
    bucketFind (bucketConcat b ai l) ai2 = bucketFind b ai2 := by
  have hne : ai ≠ ai2 := fun he => h he.symm
  induction b with
  | nil => simp [bucketConcat, bucketFind, hne]
  | cons kv rest ih =>
    obtain ⟨k, v⟩ := kv
    by_cases hk : k = ai
    · subst hk
      simp [bucketConcat, bucketFind, hne]
    · simp [bucketConcat, bucketFind, hk, ih]

theorem bucketAppendAll_find_notmem (node : ChainNode) (b : BucketMap)
    (ai : AllocInfo) (h : ai ∉ node.map Prod.fst) :
    bucketFind (bucketAppendAll b node) ai = bucketFind b ai := by
  induction node generalizing b with
  | nil => rfl
  | cons kv rest ih =>
    obtain ⟨k, v⟩ := kv
    rw [List.map_cons, List.mem_cons] at h
    push_neg at h
    show bucketFind (bucketAppendAll (bucketConcat b k v) rest) ai = bucketFind b ai
    rw [ih (bucketConcat b k v) h.2]
    exact bucketFind_bucketConcat_ne b k ai v h.1

theorem bucketAppendAll_find (node : ChainNode) (b : BucketMap) (ai : AllocInfo)
    (l : List Ptr) (hnodup : (node.map Prod.fst).Nodup)
    (hfind : bucketFind node ai = some l) :
    bucketFind (bucketAppendAll b node) ai =
      some ((bucketFind b ai).getD [] ++ l) := by
  induction node generalizing b with
  | nil => simp [bucketFind] at hfind
  | cons kv rest ih =>
    obtain ⟨k, v⟩ := kv
    rw [List.map_cons, List.nodup_cons] at hnodup
    by_cases hk : k = ai
    · subst hk
      rw [show bucketFind ((k, v) :: rest) k = some v from by simp [bucketFind]] at hfind
      show bucketFind (bucketAppendAll (bucketConcat b k v) rest) k = _
      rw [bucketAppendAll_find_notmem rest _ k hnodup.1]
      rw [bucketFind_bucketConcat_self]
      rw [Option.some.injEq] at hfind
      rw [hfind]
    · rw [show bucketFind ((k, v) :: rest) ai = bucketFind rest ai from by
        simp [bucketFind, hk]] at hfind
      show bucketFind (bucketAppendAll (bucketConcat b k v) rest) ai = _
      rw [ih (bucketConcat b k v) hnodup.2 hfind]
      rw [bucketFind_bucketConcat_ne b k ai v (fun he => hk he.symm)]

/-- Claim C7: when the head chain node of the active stream holds at
least one pending pointer, `jit_free_flush` installs a fresh empty head
whose `next` is the old head (and enqueues the reclamation callback
without touching the global cache); when that callback runs it appends
every `(AllocInfo, stack)` pair of the sealed old head — each stack in
order — to the matching `alloc_free` bucket, destroys the old head,
and nulls the new head's `next`. -/
theorem jit_free_flush_spec (s : JitState) (st : Stream) (node : ChainNode)
    (rest : Chain)
    (hst : s.active_stream = some st)
    (hchain : st.release_chain = node :: rest)
    (hne : nodeSize node ≠ 0)
    (hkeys : (node.map Prod.fst).Nodup) :
    (jit_free_flush s).active_stream =
      some { st with release_chain := [] :: node :: rest } ∧
    (jit_free_flush s).events = s.events ++ [Event.enqueueFlushCallback] ∧
    (jit_free_flush s).alloc_free = s.alloc_free ∧
    (flush_callback (jit_free_flush s)).active_stream =
      some { st with release_chain := [[]] } ∧
    (flush_callback (jit_free_flush s)).alloc_free =
      bucketAppendAll s.alloc_free node ∧
    (∀ ai l, bucketFind node ai = some l →
      bucketFind (flush_callback (jit_free_flush s)).alloc_free ai =
        some ((bucketFind s.alloc_free ai).getD [] ++ l)) := by
  have hnodene : ¬ node = [] := by
    intro h
    exact hne (by rw [h]; rfl)
  have hF : jit_free_flush s =
      { s with
        active_stream := some { st with release_chain := [] :: node :: rest },
        events := s.events ++ [Event.enqueueFlushCallback] } := by
    unfold jit_free_flush
    simp only [hst, hchain]
    rw [if_neg hnodene, if_neg hne]
  rw [hF]
  refine ⟨rfl, rfl, rfl, ?_, ?_, ?_⟩
  · rfl
  · rfl
  · intro ai l hfind
    show bucketFind (bucketAppendAll s.alloc_free node) ai = _
    exact bucketAppendAll_find node s.alloc_free ai l hkeys hfind

/-- Witness for C7 at a concrete input: a CUDA stream whose head node
holds two pending Device pointers. -/
theorem jit_free_flush_spec_witness :
    (jit_free_flush flushState).active_stream =
      some ⟨true, 0, [[], [(⟨AllocType.Device, 0, 64⟩, [11, 12])]]⟩ ∧
    (jit_free_flush flushState).events =
      flushState.events ++ [Event.enqueueFlushCallback] ∧
    (jit_free_flush flushState).alloc_free = flushState.alloc_free ∧
    (flush_callback (jit_free_flush flushState)).active_stream =
      some ⟨true, 0, [[]]⟩ ∧
    (flush_callback (jit_free_flush flushState)).alloc_free =
      bucketAppendAll flushState.alloc_free [(⟨AllocType.Device, 0, 64⟩, [11, 12])] ∧
    (∀ ai l, bucketFind [(⟨AllocType.Device, 0, 64⟩, [11, 12])] ai = some l →
      bucketFind (flush_callback (jit_free_flush flushState)).alloc_free ai =
        some ((bucketFind flushState.alloc_free ai).getD [] ++ l)) :=
  jit_free_flush_spec flushState ⟨true, 0, [[(⟨AllocType.Device, 0, 64⟩, [11, 12])]]⟩
    [(⟨AllocType.Device, 0, 64⟩, [11, 12])] [] (by decide) (by decide)
    (by decide) (by decide)

/-! ### Claim C3 -/

/-- Events that are neither a trim entry, the out-of-memory warning,
nor a raw-allocator attempt — everything `jit_free` can emit. -/
def noAllocEvent (e : Event) : Bool :=
  match e with
  | .trimCalled _ => false
  | .warnOOM => false
  | .rawAllocAttempt _ _ _ => false
  | _ => true

theorem countTrim_append (l1 l2 : List Event) :
    countTrim (l1 ++ l2) = countTrim l1 + countTrim l2 :=
  List.countP_append _ _ _

theorem countWarn_append (l1 l2 : List Event) :
    countWarn (l1 ++ l2) = countWarn l1 + countWarn l2 :=
  List.countP_append _ _ _

theorem countAttempts_append (l1 l2 : List Event) :
    countAttempts (l1 ++ l2) = countAttempts l1 + countAttempts l2 :=
  List.countP_append _ _ _

theorem if_bool_true {α : Sort u} (X Y : α) :
    (if (true : Bool) = true then X else Y) = X := rfl

theorem if_bool_false {α : Sort u} (X Y : α) :
    (if (false : Bool) = true then X else Y) = Y := rfl

theorem counts_eq_zero_of_noAlloc (l : List Event)
    (h : ∀ e ∈ l, noAllocEvent e = true) :
    countTrim l = 0 ∧ countWarn l = 0 ∧ countAttempts l = 0 := by
  refine ⟨?_, ?_, ?_⟩
  · unfold countTrim
    rw [List.countP_eq_zero]
    intro e he
    have h2 := h e he
    cases e <;> simp_all [noAllocEvent]
  · unfold countWarn
    rw [List.countP_eq_zero]
    intro e he
    have h2 := h e he
    cases e <;> simp_all [noAllocEvent]
  · unfold countAttempts
    rw [List.countP_eq_zero]
    intro e he
    have h2 := h e he
    cases e <;> simp_all [noAllocEvent]

theorem trimFreeEvents_noAlloc (b : BucketMap) :
    ∀ e ∈ trimFreeEvents b, noAllocEvent e = true := by
  induction b with
  | nil => intro e he; cases he
  | cons kv rest ih =>
    intro e he
    rw [trimFreeEvents, List.mem_append] at he
    rcases he with he | he
    · rw [List.mem_map] at he
      obtain ⟨p, _, hp⟩ := he
      rw [← hp]
      rfl
    · exact ih e he

theorem jit_free_unmap_cons
    (freeFn : Ptr → JitState → Except Error Unit × JitState)
    (b : Bool) (p : Ptr) (rest : List (Bool × Ptr)) (s : JitState) :
    jit_free_unmap freeFn ((b, p) :: rest) s =
      jit_free_unmap freeFn rest
        (if b then
          (freeFn p { s with events := s.events ++ [Event.hostUnregister p] }).2
         else { s with events := s.events ++ [Event.hostUnregister p] }) := rfl

/-- `jit_free` (at any fuel) never touches the raw-allocator oracle or
the warn flag, and only appends unregister/sync events. -/
theorem jit_free_unmap_oracle
    (freeFn : Ptr → JitState → Except Error Unit × JitState)
    (hf : ∀ p s, (freeFn p s).2.raw = s.raw ∧
          (freeFn p s).2.trim_warned = s.trim_warned ∧
          ∃ l, (freeFn p s).2.events = s.events ++ l ∧
               ∀ e ∈ l, noAllocEvent e = true) :
    ∀ (um : List (Bool × Ptr)) (s : JitState),
      (jit_free_unmap freeFn um s).raw = s.raw ∧
      (jit_free_unmap freeFn um s).trim_warned = s.trim_warned ∧
      ∃ l, (jit_free_unmap freeFn um s).events = s.events ++ l ∧
           ∀ e ∈ l, noAllocEvent e = true := by
  intro um
  induction um with
  | nil =>
    intro s
    exact ⟨rfl, rfl, [], by simp [jit_free_unmap], by intro e he; cases he⟩
  | cons bp rest ih =>
    intro s
    obtain ⟨b, p⟩ := bp
    rw [jit_free_unmap_cons]
    cases b with
    | false =>
      rw [if_bool_false]
      obtain ⟨h1, h2, l, h3, h4⟩ :=
        ih { s with events := s.events ++ [Event.hostUnregister p] }
      refine ⟨h1, h2, Event.hostUnregister p :: l, ?_, ?_⟩
      · rw [h3]
        simp
      · intro e he
        rcases List.mem_cons.1 he with he | he
        · rw [he]; rfl
        · exact h4 e he
    | true =>
      rw [if_bool_true]
      obtain ⟨hf1, hf2, lf, hf3, hf4⟩ :=
        hf p { s with events := s.events ++ [Event.hostUnregister p] }
      obtain ⟨h1, h2, l, h3, h4⟩ :=
        ih (freeFn p { s with events := s.events ++ [Event.hostUnregister p] }).2
      refine ⟨by rw [h1, hf1], by rw [h2, hf2],
        Event.hostUnregister p :: (lf ++ l), ?_, ?_⟩
      · rw [h3, hf3]
        simp
      · intro e he
        rcases List.mem_cons.1 he with he | he
        · rw [he]; rfl
        · rcases List.mem_append.1 he with he | he
          · exact hf4 e he
          · exact h4 e he

theorem jit_free_go_oracle : ∀ (fuel : Nat) (ptr : Ptr) (s : JitState),
    (jit_free_go fuel ptr s).2.raw = s.raw ∧
    (jit_free_go fuel ptr s).2.trim_warned = s.trim_warned ∧
    ∃ l, (jit_free_go fuel ptr s).2.events = s.events ++ l ∧
         ∀ e ∈ l, noAllocEvent e = true := by
  intro fuel
  induction fuel with
  | zero =>
    intro ptr s
    exact ⟨rfl, rfl, [], by simp [jit_free_go], by intro e he; cases he⟩
  | succ fuel ih =>
    intro ptr s
    unfold jit_free_go
    split
    · exact ⟨rfl, rfl, [], by simp, by intro e he; cases he⟩
    · split
      · exact ⟨rfl, rfl, [], by simp, by intro e he; cases he⟩
      · rename_i ai hfind
        split
        · exact ⟨rfl, rfl, [], by simp, by intro e he; cases he⟩
        · split
          · rename_i st hst
            split
            · split
              · obtain ⟨h1, h2, l, h3, h4⟩ := jit_free_unmap_oracle
                  (jit_free_go fuel) (fun p s2 => ih p s2) s.alloc_unmap _
                exact ⟨h1, h2, l, h3, h4⟩
              · exact ⟨rfl, rfl, [], by simp, by intro e he; cases he⟩
            · refine ⟨rfl, rfl, [Event.syncAllDevices], rfl, ?_⟩
              intro e he
              rcases List.mem_cons.1 he with he | he
              · rw [he]; rfl
              · cases he
          · refine ⟨rfl, rfl, [Event.syncAllDevices], rfl, ?_⟩
            intro e he
            rcases List.mem_cons.1 he with he | he
            · rw [he]; rfl
            · cases he

/-- The reclamation stage of trim does not touch the oracle, the
sticky flag, or the counted event classes. -/
theorem jit_malloc_trim_body_effects (s : JitState) :
    (jit_malloc_trim_body s).raw = s.raw ∧
    (jit_malloc_trim_body s).trim_warned = s.trim_warned ∧
    countTrim (jit_malloc_trim_body s).events = countTrim s.events ∧
    countAttempts (jit_malloc_trim_body s).events = countAttempts s.events ∧
    countWarn (jit_malloc_trim_body s).events = countWarn s.events := by
  have hfree : ∀ p s2, (jit_free p s2).2.raw = s2.raw ∧
      (jit_free p s2).2.trim_warned = s2.trim_warned ∧
      ∃ l, (jit_free p s2).2.events = s2.events ++ l ∧
           ∀ e ∈ l, noAllocEvent e = true :=
    fun p s2 => jit_free_go_oracle _ p s2
  obtain ⟨h1, h2, l, h3, h4⟩ := jit_free_unmap_oracle jit_free hfree
    s.alloc_unmap { s with alloc_free := [], alloc_unmap := [] }
  obtain ⟨hz1, hz2, hz3⟩ := counts_eq_zero_of_noAlloc l h4
  obtain ⟨hzt, hzw, hza⟩ :=
    counts_eq_zero_of_noAlloc _ (trimFreeEvents_noAlloc s.alloc_free)
  unfold jit_malloc_trim_body
  refine ⟨h1, h2, ?_, ?_, ?_⟩
  · rw [countTrim_append, h3, countTrim_append, hz1, hzt]
    simp
  · rw [countAttempts_append, h3, countAttempts_append, hz3, hza]
    simp
  · rw [countWarn_append, h3, countWarn_append, hz2, hzw]
    simp

/-- The effects of one `jit_malloc_trim` call on the oracle, the
sticky flag and the event counters. -/
theorem jit_malloc_trim_effects (w : Bool) (s : JitState) :
    (jit_malloc_trim w s).raw = s.raw ∧
    (jit_malloc_trim w s).trim_warned = (s.trim_warned || w) ∧
    countTrim (jit_malloc_trim w s).events = countTrim s.events + 1 ∧
    countAttempts (jit_malloc_trim w s).events = countAttempts s.events ∧
    countWarn (jit_malloc_trim w s).events =
      countWarn s.events + (if w && !s.trim_warned then 1 else 0) := by
  by_cases hw : (w && !s.trim_warned) = true
  · have he : jit_malloc_trim w s = jit_malloc_trim_body
        { s with events := s.events ++ [Event.trimCalled w] ++ [Event.warnOOM],
                 trim_warned := true } := by
      show jit_malloc_trim_body
          (if (w && !s.trim_warned) = true then
            { s with events := s.events ++ [Event.trimCalled w] ++ [Event.warnOOM],
                     trim_warned := true }
           else { s with events := s.events ++ [Event.trimCalled w] }) = _
      rw [if_pos hw]
    rw [he]
    obtain ⟨hb1, hb2, hb3, hb4, hb5⟩ := jit_malloc_trim_body_effects
      { s with events := s.events ++ [Event.trimCalled w] ++ [Event.warnOOM],
               trim_warned := true }
    obtain ⟨hww, hst⟩ : w = true ∧ s.trim_warned = false := by
      cases hcw : w <;> cases hcs : s.trim_warned <;> simp_all
    refine ⟨hb1, ?_, ?_, ?_, ?_⟩
    · rw [hb2, hww, hst]
      rfl
    · rw [hb3]
      show countTrim (s.events ++ [Event.trimCalled w] ++ [Event.warnOOM]) = _
      rw [countTrim_append, countTrim_append]
      rfl
    · rw [hb4]
      show countAttempts (s.events ++ [Event.trimCalled w] ++ [Event.warnOOM]) = _
      rw [countAttempts_append, countAttempts_append]
      rfl
    · rw [hb5]
      show countWarn (s.events ++ [Event.trimCalled w] ++ [Event.warnOOM]) = _
      rw [countWarn_append, countWarn_append, if_pos hw]
      rfl
  · have he : jit_malloc_trim w s = jit_malloc_trim_body
        { s with events := s.events ++ [Event.trimCalled w] } := by
      show jit_malloc_trim_body
          (if (w && !s.trim_warned) = true then
            { s with events := s.events ++ [Event.trimCalled w] ++ [Event.warnOOM],
                     trim_warned := true }
           else { s with events := s.events ++ [Event.trimCalled w] }) = _
      rw [if_neg hw]
    rw [he]
    obtain ⟨hb1, hb2, hb3, hb4, hb5⟩ := jit_malloc_trim_body_effects
      { s with events := s.events ++ [Event.trimCalled w] }
    refine ⟨hb1, ?_, ?_, ?_, ?_⟩
    · rw [hb2]
      show s.trim_warned = (s.trim_warned || w)
      cases hww : w <;> cases hst : s.trim_warned <;> simp_all
    · rw [hb3]
      show countTrim (s.events ++ [Event.trimCalled w]) = _
      rw [countTrim_append]
      rfl
    · rw [hb4]
      show countAttempts (s.events ++ [Event.trimCalled w]) = _
      rw [countAttempts_append]
      rfl
    · rw [hb5]
      show countWarn (s.events ++ [Event.trimCalled w]) = _
      rw [countWarn_append, if_neg hw]
      rfl

/-- Projections of `malloc_finish`. -/
theorem malloc_finish_fst (ai : AllocInfo) (p : Ptr) (s : JitState) :
    (malloc_finish ai p s).1 = .ok p := rfl

theorem malloc_finish_events (ai : AllocInfo) (p : Ptr) (s : JitState) :
    (malloc_finish ai p s).2.events = s.events := rfl

theorem malloc_finish_raw (ai : AllocInfo) (p : Ptr) (s : JitState) :
    (malloc_finish ai p s).2.raw = s.raw := rfl

theorem malloc_finish_tw (ai : AllocInfo) (p : Ptr) (s : JitState) :
    (malloc_finish ai p s).2.trim_warned = s.trim_warned := rfl

/-- Behaviour of the raw path of `jit_malloc` when the first raw
attempt refuses: one trim, one retry, out-of-memory iff the retry
refuses too, warning iff the flag was clear, flag sticky afterwards. -/
theorem jit_malloc_raw_retry (ai : AllocInfo) (s : JitState)
    (rest : List (Option Ptr)) (hraw : s.raw = none :: rest) :
    (jit_malloc_raw ai s).1 =
      (match rest.head? with
       | some (some p) => .ok p
       | _ => .error .OutOfMemory) ∧
    (jit_malloc_raw ai s).2.raw = rest.tail ∧
    countTrim (jit_malloc_raw ai s).2.events = countTrim s.events + 1 ∧
    countAttempts (jit_malloc_raw ai s).2.events = countAttempts s.events + 2 ∧
    (jit_malloc_raw ai s).2.trim_warned = true ∧
    countWarn (jit_malloc_raw ai s).2.events =
      countWarn s.events + (if s.trim_warned then 0 else 1) := by
  have e1 : (rawAttempt ai.type ai.size s).1 = none := by
    unfold rawAttempt
    rw [hraw]
  have e2 : (rawAttempt ai.type ai.size s).2 =
      { s with raw := rest,
               events := s.events ++ [Event.rawAllocAttempt ai.type ai.size none] } := by
    unfold rawAttempt
    rw [hraw]
  have hB1 : (jit_malloc_trim jit_malloc_trim_default_warn
      { s with raw := rest,
               events := s.events ++ [Event.rawAllocAttempt ai.type ai.size none] }).raw
        = rest :=
    (jit_malloc_trim_effects _ _).1
  have hB2 : (jit_malloc_trim jit_malloc_trim_default_warn
      { s with raw := rest,
               events := s.events ++ [Event.rawAllocAttempt ai.type ai.size none] }).trim_warned
        = true := by
    have h := (jit_malloc_trim_effects jit_malloc_trim_default_warn
      { s with raw := rest,
               events := s.events ++ [Event.rawAllocAttempt ai.type ai.size none] }).2.1
    exact h.trans (by simp [jit_malloc_trim_default_warn])
  have hB3 : countTrim (jit_malloc_trim jit_malloc_trim_default_warn
      { s with raw := rest,
               events := s.events ++ [Event.rawAllocAttempt ai.type ai.size none] }).events
        = countTrim (s.events ++ [Event.rawAllocAttempt ai.type ai.size none]) + 1 :=
    (jit_malloc_trim_effects _ _).2.2.1
  have hB4 : countAttempts (jit_malloc_trim jit_malloc_trim_default_warn
      { s with raw := rest,
               events := s.events ++ [Event.rawAllocAttempt ai.type ai.size none] }).events
        = countAttempts (s.events ++ [Event.rawAllocAttempt ai.type ai.size none]) :=
    (jit_malloc_trim_effects _ _).2.2.2.1
  have hB5 : countWarn (jit_malloc_trim jit_malloc_trim_default_warn
      { s with raw := rest,
               events := s.events ++ [Event.rawAllocAttempt ai.type ai.size none] }).events
        = countWarn (s.events ++ [Event.rawAllocAttempt ai.type ai.size none])
          + (if s.trim_warned then 0 else 1) := by
    have h := (jit_malloc_trim_effects jit_malloc_trim_default_warn
      { s with raw := rest,
               events := s.events ++ [Event.rawAllocAttempt ai.type ai.size none] }).2.2.2.2
    refine h.trans ?_
    show countWarn (s.events ++ [Event.rawAllocAttempt ai.type ai.size none])
        + (if jit_malloc_trim_default_warn && !s.trim_warned then 1 else 0) = _
    cases hst : s.trim_warned <;> rfl
  have hAt : countTrim (s.events ++ [Event.rawAllocAttempt ai.type ai.size none])
      = countTrim s.events := by
    rw [countTrim_append]
    rfl
  have hAa : countAttempts (s.events ++ [Event.rawAllocAttempt ai.type ai.size none])
      = countAttempts s.events + 1 := by
    rw [countAttempts_append]
    rfl
  have hAw : countWarn (s.events ++ [Event.rawAllocAttempt ai.type ai.size none])
      = countWarn s.events := by
    rw [countWarn_append]
    rfl
  cases rest with
  | nil =>
    have e3a : (rawAttempt ai.type ai.size (jit_malloc_trim jit_malloc_trim_default_warn
        { s with raw := ([] : List (Option Ptr)),
                 events := s.events ++ [Event.rawAllocAttempt ai.type ai.size none] })).1
          = none := by
      unfold rawAttempt
      rw [hB1]
    have hres : jit_malloc_raw ai s =
        (.error .OutOfMemory,
         (rawAttempt ai.type ai.size (jit_malloc_trim jit_malloc_trim_default_warn
           { s with raw := ([] : List (Option Ptr)),
                    events := s.events ++ [Event.rawAllocAttempt ai.type ai.size none] })).2) := by
      unfold jit_malloc_raw
      rw [e1, e2, e3a]
    have e3ev : (rawAttempt ai.type ai.size (jit_malloc_trim jit_malloc_trim_default_warn
        { s with raw := ([] : List (Option Ptr)),
                 events := s.events ++ [Event.rawAllocAttempt ai.type ai.size none] })).2.events
          = (jit_malloc_trim jit_malloc_trim_default_warn
             { s with raw := ([] : List (Option Ptr)),
                      events := s.events ++ [Event.rawAllocAttempt ai.type ai.size none] }).events
            ++ [Event.rawAllocAttempt ai.type ai.size none] := by
      unfold rawAttempt
      rw [hB1]
    have e3raw : (rawAttempt ai.type ai.size (jit_malloc_trim jit_malloc_trim_default_warn
        { s with raw := ([] : List (Option Ptr)),
                 events := s.events ++ [Event.rawAllocAttempt ai.type ai.size none] })).2.raw
          = [] := by
      unfold rawAttempt
      rw [hB1]
    have e3tw : (rawAttempt ai.type ai.size (jit_malloc_trim jit_malloc_trim_default_warn
        { s with raw := ([] : List (Option Ptr)),
                 events := s.events ++ [Event.rawAllocAttempt ai.type ai.size none] })).2.trim_warned
          = true := by
      unfold rawAttempt
      rw [hB1, hB2]
    rw [hres]
    refine ⟨rfl, e3raw, ?_, ?_, e3tw, ?_⟩
    · show countTrim (rawAttempt _ _ _).2.events = _
      rw [e3ev, countTrim_append, hB3, hAt]
      rfl
    · show countAttempts (rawAttempt _ _ _).2.events = _
      rw [e3ev, countAttempts_append, hB4, hAa]
      rfl
    · show countWarn (rawAttempt _ _ _).2.events = _
      rw [e3ev, countWarn_append, hB5, hAw]
      cases hst : s.trim_warned <;> rfl
  | cons r rest2 =>
    have e3a : (rawAttempt ai.type ai.size (jit_malloc_trim jit_malloc_trim_default_warn
        { s with raw := r :: rest2,
                 events := s.events ++ [Event.rawAllocAttempt ai.type ai.size none] })).1
          = r := by
      unfold rawAttempt
      rw [hB1]
    have e3ev : (rawAttempt ai.type ai.size (jit_malloc_trim jit_malloc_trim_default_warn
        { s with raw := r :: rest2,
                 events := s.events ++ [Event.rawAllocAttempt ai.type ai.size none] })).2.events
          = (jit_malloc_trim jit_malloc_trim_default_warn
             { s with raw := r :: rest2,
                      events := s.events ++ [Event.rawAllocAttempt ai.type ai.size none] }).events
            ++ [Event.rawAllocAttempt ai.type ai.size r] := by
      unfold rawAttempt
      rw [hB1]
    have e3raw : (rawAttempt ai.type ai.size (jit_malloc_trim jit_malloc_trim_default_warn
        { s with raw := r :: rest2,
                 events := s.events ++ [Event.rawAllocAttempt ai.type ai.size none] })).2.raw
          = rest2 := by
      unfold rawAttempt
      rw [hB1]
    have e3tw : (rawAttempt ai.type ai.size (jit_malloc_trim jit_malloc_trim_default_warn
        { s with raw := r :: rest2,
                 events := s.events ++ [Event.rawAllocAttempt ai.type ai.size none] })).2.trim_warned
          = true := by
      unfold rawAttempt
      rw [hB1, hB2]
    cases r with
    | none =>
      have hres : jit_malloc_raw ai s =
          (.error .OutOfMemory,
           (rawAttempt ai.type ai.size (jit_malloc_trim jit_malloc_trim_default_warn
             { s with raw := none :: rest2,
                      events := s.events ++ [Event.rawAllocAttempt ai.type ai.size none] })).2) := by
        unfold jit_malloc_raw
        rw [e1, e2, e3a]
      rw [hres]
      refine ⟨rfl, e3raw, ?_, ?_, e3tw, ?_⟩
      · show countTrim (rawAttempt _ _ _).2.events = _
        rw [e3ev, countTrim_append, hB3, hAt]
        rfl
      · show countAttempts (rawAttempt _ _ _).2.events = _
        rw [e3ev, countAttempts_append, hB4, hAa]
        rfl
      · show countWarn (rawAttempt _ _ _).2.events = _
        rw [e3ev, countWarn_append, hB5, hAw]
        cases hst : s.trim_warned <;> rfl
    | some p =>
      have hres : jit_malloc_raw ai s =
          malloc_finish ai p
            (rawAttempt ai.type ai.size (jit_malloc_trim jit_malloc_trim_default_warn
              { s with raw := some p :: rest2,
                       events := s.events ++ [Event.rawAllocAttempt ai.type ai.size none] })).2 := by
        unfold jit_malloc_raw
        rw [e1, e2, e3a]
      rw [hres]
      refine ⟨malloc_finish_fst _ _ _, ?_, ?_, ?_, ?_, ?_⟩
      · rw [malloc_finish_raw, e3raw]
        rfl
      · rw [malloc_finish_events, e3ev, countTrim_append, hB3, hAt]
        rfl
      · rw [malloc_finish_events, e3ev, countAttempts_append, hB4, hAa]
        rfl
      · rw [malloc_finish_tw, e3tw]
      · rw [malloc_finish_events, e3ev, countWarn_append, hB5, hAw]
        cases hst : s.trim_warned <;> rfl

/-- Claim C3: for every kind and positive size, when the cache lookup
misses and the raw allocator refuses the first attempt, `jit_malloc`
calls `jit_malloc_trim` exactly once and retries the raw allocation
exactly once, raising `OutOfMemory` iff the retry also refuses; the
out-of-memory warning is emitted on that trim iff the sticky flag was
still clear, the flag is set afterwards, and any later trim — with any
`warn` argument — emits no further warning. -/
theorem jit_malloc_oom_retry (t : AllocType) (size0 : Nat) (s : JitState)
    (ai : AllocInfo) (rest : List (Option Ptr))
    (h0 : size0 ≠ 0)
    (hmiss : jit_malloc_lookup t (jit_malloc_round s.vector_width t size0) s
      = .miss ai s)
    (hraw : s.raw = none :: rest) :
    (jit_malloc t size0 s).1 =
      (match rest.head? with
       | some (some p) => .ok p
       | _ => .error .OutOfMemory) ∧
    (jit_malloc t size0 s).2.raw = rest.tail ∧
    countTrim (jit_malloc t size0 s).2.events = countTrim s.events + 1 ∧
    countAttempts (jit_malloc t size0 s).2.events = countAttempts s.events + 2 ∧
    (jit_malloc t size0 s).2.trim_warned = true ∧
    countWarn (jit_malloc t size0 s).2.events =
      countWarn s.events + (if s.trim_warned then 0 else 1) ∧
    (∀ (w : Bool) (s3 : JitState), s3.trim_warned = true →
      countWarn (jit_malloc_trim w s3).events = countWarn s3.events ∧
      (jit_malloc_trim w s3).trim_warned = true) := by
  have hm : jit_malloc t size0 s = jit_malloc_raw ai s := by
    unfold jit_malloc
    rw [if_neg h0]
    simp only [hmiss]
  rw [hm]
  obtain ⟨h1, h2, h3, h4, h5, h6⟩ := jit_malloc_raw_retry ai s rest hraw
  refine ⟨h1, h2, h3, h4, h5, h6, ?_⟩
  intro w s3 hs3
  obtain ⟨_, ht2, _, _, ht5⟩ := jit_malloc_trim_effects w s3
  constructor
  · rw [ht5, hs3]
    cases w <;> rfl
  · rw [ht2, hs3]
    rfl

/-- Witness for C3 at a concrete input: `Host` kind, size 1, empty
caches, an oracle that refuses once then yields pointer 777. -/
theorem jit_malloc_oom_retry_witness :
    (1 : Nat) ≠ 0 ∧
    jit_malloc_lookup AllocType.Host
      (jit_malloc_round oomState.vector_width AllocType.Host 1) oomState
      = .miss ⟨AllocType.Host, 0, 64⟩ oomState ∧
    oomState.raw = none :: [some 777] ∧
    (jit_malloc AllocType.Host 1 oomState).1 = .ok 777 ∧
    (jit_malloc AllocType.Host 1 oomState).2.raw = [] ∧
    countTrim (jit_malloc AllocType.Host 1 oomState).2.events =
      countTrim oomState.events + 1 ∧
    countAttempts (jit_malloc AllocType.Host 1 oomState).2.events =
      countAttempts oomState.events + 2 ∧
    (jit_malloc AllocType.Host 1 oomState).2.trim_warned = true := by
  have h := jit_malloc_oom_retry AllocType.Host 1 oomState
    ⟨AllocType.Host, 0, 64⟩ [some 777] (by decide) (by decide) (by decide)
  exact ⟨by decide, by decide, by decide, h.1, h.2.1, h.2.2.1, h.2.2.2.1, h.2.2.2.2.1⟩

/-! ### Claim C5 -/

/-- The bit-smearing core of `round_pow2`: after it, every bit below
the most significant set bit is set. -/
def smear (y : Nat) : Nat :=
  let y := y ||| (y >>> 1)
  let y := y ||| (y >>> 2)
  let y := y ||| (y >>> 4)
  let y := y ||| (y >>> 8)
  let y := y ||| (y >>> 16)
  let y := y ||| (y >>> 32)
  y

theorem round_pow2_eq_smear (x : Nat) :
    round_pow2 x = (smear ((x + (two64 - 1)) % two64) + 1) % two64 := rfl

theorem testBit_or_shift (x k i : Nat) :
    (x ||| (x >>> k)).testBit i = (x.testBit i || x.testBit (i + k)) := by
  rw [Nat.testBit_lor, Nat.testBit_shiftRight, Nat.add_comm k i]

theorem step_range (y x m k : Nat) (hk : k = m + 1)
    (hx : ∀ i, x.testBit i = true ↔ ∃ d, d ≤ m ∧ y.testBit (i + d) = true) :
    ∀ i, (x ||| (x >>> k)).testBit i = true ↔
      ∃ d, d ≤ 2 * m + 1 ∧ y.testBit (i + d) = true := by
  intro i
  rw [testBit_or_shift, Bool.or_eq_true, hx, hx, hk]
  constructor
  · rintro (⟨d, hd, hb⟩ | ⟨d, hd, hb⟩)
    · exact ⟨d, by omega, hb⟩
    · refine ⟨m + 1 + d, by omega, ?_⟩
      rw [show i + (m + 1 + d) = i + (m + 1) + d from by omega]
      exact hb
  · rintro ⟨d, hd, hb⟩
    by_cases hdm : d ≤ m
    · exact Or.inl ⟨d, hdm, hb⟩
    · refine Or.inr ⟨d - (m + 1), by omega, ?_⟩
      rw [show i + (m + 1) + (d - (m + 1)) = i + d from by omega]
      exact hb

theorem smear_testBit (y : Nat) :
    ∀ i, (smear y).testBit i = true ↔ ∃ d, d ≤ 63 ∧ y.testBit (i + d) = true := by
  have h0 : ∀ i, y.testBit i = true ↔ ∃ d, d ≤ 0 ∧ y.testBit (i + d) = true := by
    intro i
    constructor
    · intro h
      exact ⟨0, Nat.le_refl 0, by simpa using h⟩
    · rintro ⟨d, hd, hb⟩
      obtain rfl : d = 0 := Nat.le_zero.1 hd
      simpa using hb
  have h1 := step_range y y 0 1 rfl h0
  have h2 := step_range y _ 1 2 rfl h1
  have h3 := step_range y _ 3 4 rfl h2
  have h4 := step_range y _ 7 8 rfl h3
  have h5 := step_range y _ 15 16 rfl h4
  have h6 := step_range y _ 31 32 rfl h5
  intro i
  have h7 := h6 i
  have e : 2 * 31 + 1 = 63 := by norm_num
  rw [e] at h7
  exact h7

theorem testBit_log2_self (y : Nat) (h : 1 ≤ y) :
    y.testBit (Nat.log2 y) = true := by
  have h1 : 2 ^ Nat.log2 y ≤ y := Nat.log2_self_le (by omega)
  have h2 : y < 2 ^ (Nat.log2 y + 1) := Nat.lt_log2_self
  rw [Nat.testBit_to_div_mod]
  have h3 : y / 2 ^ Nat.log2 y = 1 := by
    have hpos : 0 < 2 ^ Nat.log2 y := pow_pos (by norm_num) _
    have hlo : 1 ≤ y / 2 ^ Nat.log2 y := (Nat.one_le_div_iff hpos).2 h1
    have hhi : y / 2 ^ Nat.log2 y < 2 := by
      rw [Nat.div_lt_iff_lt_mul hpos]
      calc y < 2 ^ (Nat.log2 y + 1) := h2
        _ = 2 ^ Nat.log2 y * 2 := by rw [Nat.pow_succ]
        _ ≤ 2 * 2 ^ Nat.log2 y := by omega
    omega
  rw [h3]
  rfl

theorem smear_eq_pow_sub_one (y : Nat) (h1 : 1 ≤ y) (h2 : y < 2 ^ 63) :
    smear y = 2 ^ (Nat.log2 y + 1) - 1 := by
  have hL : Nat.log2 y < 63 := (Nat.log2_lt (by omega)).2 h2
  apply Nat.eq_of_testBit_eq
  intro i
  rw [Nat.testBit_two_pow_sub_one]
  by_cases hi : i ≤ Nat.log2 y
  · have hbit : y.testBit (Nat.log2 y) = true := testBit_log2_self y h1
    have hset : (smear y).testBit i = true := by
      rw [smear_testBit]
      refine ⟨Nat.log2 y - i, by omega, ?_⟩
      rw [show i + (Nat.log2 y - i) = Nat.log2 y from by omega]
      exact hbit
    rw [hset]
    have hlt : i < Nat.log2 y + 1 := by omega
    simp [hlt]
  · have hunset : (smear y).testBit i = false := by
      cases hbt : (smear y).testBit i
      · rfl
      · exfalso
        obtain ⟨d, hd, hb⟩ := (smear_testBit y i).1 hbt
        have hylt : y < 2 ^ (i + d) := by
          calc y < 2 ^ (Nat.log2 y + 1) := Nat.lt_log2_self
            _ ≤ 2 ^ (i + d) := Nat.pow_le_pow_right (by norm_num) (by omega)
        rw [Nat.testBit_lt_two_pow hylt] at hb
        cases hb
    rw [hunset]
    have hge : ¬ (i < Nat.log2 y + 1) := by omega
    simp [hge]

theorem round_pow2_spec (a : Nat) (h1 : 2 ≤ a) (h2 : a ≤ 2 ^ 63) :
    ∃ k, k ≤ 63 ∧ round_pow2 a = 2 ^ k ∧ a ≤ 2 ^ k := by
  rw [round_pow2_eq_smear]
  have e64 : two64 = 18446744073709551616 := rfl
  have e63 : (2 : Nat) ^ 63 = 9223372036854775808 := by norm_num
  have hmod : (a + (two64 - 1)) % two64 = a - 1 := by
    rw [e64]
    omega
  rw [hmod]
  have hy1 : 1 ≤ a - 1 := by omega
  have hy2 : a - 1 < 2 ^ 63 := by omega
  rw [smear_eq_pow_sub_one (a - 1) hy1 hy2]
  have hL : Nat.log2 (a - 1) < 63 := (Nat.log2_lt (by omega)).2 hy2
  have hpos : 0 < 2 ^ (Nat.log2 (a - 1) + 1) := pow_pos (by norm_num) _
  have hup : 2 ^ (Nat.log2 (a - 1) + 1) ≤ 2 ^ 63 :=
    Nat.pow_le_pow_right (by norm_num) (by omega)
  refine ⟨Nat.log2 (a - 1) + 1, by omega, ?_, ?_⟩
  · rw [show 2 ^ (Nat.log2 (a - 1) + 1) - 1 + 1 = 2 ^ (Nat.log2 (a - 1) + 1)
      from by omega]
    apply Nat.mod_eq_of_lt
    omega
  · have hself : a - 1 < 2 ^ (Nat.log2 (a - 1) + 1) := Nat.lt_log2_self
    omega

theorem roundup_ge (s p : Nat) (hp : 0 < p) : s ≤ (s + p - 1) / p * p := by
  by_contra hcon
  push_neg at hcon
  have h2 : ((s + p - 1) / p + 1) * p ≤ s + p - 1 := by
    have e : ((s + p - 1) / p + 1) * p = (s + p - 1) / p * p + p := by ring
    omega
  have h3 := (Nat.le_div_iff_mul_le hp).2 h2
  omega

theorem roundup_le (s p M : Nat) (hp : 0 < p) (hd : p ∣ M) (hs : s ≤ M) :
    (s + p - 1) / p * p ≤ M := by
  obtain ⟨m, rfl⟩ := hd
  have h1 : (s + p - 1) / p ≤ (p * m + (p - 1)) / p :=
    Nat.div_le_div_right (by omega)
  have h2 : (p * m + (p - 1)) / p = m + (p - 1) / p := Nat.mul_add_div hp m (p - 1)
  have h3 : (p - 1) / p = 0 := Nat.div_eq_of_lt (by omega)
  have h4 : (s + p - 1) / p ≤ m := by omega
  calc (s + p - 1) / p * p ≤ m * p := Nat.mul_le_mul_right p h4
    _ = p * m := Nat.mul_comm m p

theorem roundup_lower (s p : Nat) (hp : 0 < p) (hs : 0 < s) :
    p ≤ (s + p - 1) / p * p := by
  have h1 : 1 ≤ (s + p - 1) / p := (Nat.le_div_iff_mul_le hp).2 (by omega)
  calc p = 1 * p := (Nat.one_mul p).symm
    _ ≤ (s + p - 1) / p * p := Nat.mul_le_mul_right p h1

/-- Claim C5 (counterexample): the rounding is computed in wrapping
`size_t` arithmetic, so at the requested size `2^64 - 1` (type
`Device`, vector width 8) the computed bucket size is 0 — neither a
power of two as the claim requires at every representable size, nor
greater than or equal to the request. -/
theorem jit_malloc_round_overflow :
    jit_malloc_round 8 AllocType.Device (two64 - 1) = 0 ∧
    ¬ ((∃ k, jit_malloc_round 8 AllocType.Device (two64 - 1) = 2 ^ k) ∧
       two64 - 1 ≤ jit_malloc_round 8 AllocType.Device (two64 - 1)) := by
  have h : jit_malloc_round 8 AllocType.Device (two64 - 1) = 0 := by decide
  refine ⟨h, ?_⟩
  rw [h]
  rintro ⟨-, hle⟩
  have e64 : two64 = 18446744073709551616 := rfl
  omega

/-- Claim C5 (amended): for every kind and every requested size `s`
with `0 < s ≤ 2^63` (and, on the `Host`/`HostAsync` wide-vector path,
a power-of-two vector width, as for the real 16/32/64-lane targets),
the size of the `AllocInfo` built by `jit_malloc` — computed by
`jit_malloc_round`: round up to a multiple of 64 bytes, or of
`vector_width * 8` bytes for Host/HostAsync with at least 16 lanes,
then up to the next power of two — is a power of two and is at least
`s`.  Above `2^63` the `size_t` computation wraps (see the
counterexample). -/
theorem jit_malloc_round_spec (vw : Nat) (t : AllocType) (s : Nat)
    (h0 : 0 < s) (h1 : s ≤ 2 ^ 63)
    (hvw : vw < 16 ∨ ∃ j, j ≤ 31 ∧ vw = 2 ^ j) :
    ∃ k, jit_malloc_round vw t s = 2 ^ k ∧ s ≤ 2 ^ k := by
  have e64 : two64 = 18446744073709551616 := rfl
  have e63 : (2 : Nat) ^ 63 = 9223372036854775808 := by norm_num
  unfold jit_malloc_round
  split
  · -- 64-byte alignment path
    have hmod : (s + 63) % two64 = s + 63 := Nat.mod_eq_of_lt (by omega)
    rw [hmod, show s + 63 = s + 64 - 1 from by omega]
    have hge := roundup_ge s 64 (by norm_num)
    have hle2 : (s + 64 - 1) / 64 * 64 ≤ 2 ^ 63 :=
      roundup_le s 64 (2 ^ 63) (by norm_num) ⟨2 ^ 57, by norm_num⟩ h1
    have hlow := roundup_lower s 64 (by norm_num) h0
    obtain ⟨k, hk63, hkeq, hkge⟩ :=
      round_pow2_spec ((s + 64 - 1) / 64 * 64) (by omega) hle2
    exact ⟨k, hkeq, by omega⟩
  · -- wide-vector packet path: vector width at least 16 lanes
    rename_i hcond
    push_neg at hcond
    obtain ⟨j, hj31, hvwj⟩ : ∃ j, j ≤ 31 ∧ vw = 2 ^ j := by
      rcases hvw with h | h
      · exact absurd h (by omega)
      · exact h
    subst hvwj
    show ∃ k, round_pow2 ((s + 2 ^ j * 8 - 1) % two64 / (2 ^ j * 8) * (2 ^ j * 8))
        = 2 ^ k ∧ s ≤ 2 ^ k
    have hp8 : 2 ^ j * 8 = 2 ^ (j + 3) := by
      rw [show (8 : Nat) = 2 ^ 3 from rfl, ← pow_add]
    have hppos : 0 < 2 ^ j * 8 := by positivity
    have hpbound : 2 ^ j * 8 ≤ 2 ^ 31 * 8 :=
      Nat.mul_le_mul_right 8 (Nat.pow_le_pow_right (by norm_num) hj31)
    have hmod : (s + 2 ^ j * 8 - 1) % two64 = s + 2 ^ j * 8 - 1 :=
      Nat.mod_eq_of_lt (by omega)
    rw [hmod]
    have hdvd : 2 ^ j * 8 ∣ 2 ^ 63 := by
      rw [hp8]
      exact pow_dvd_pow 2 (by omega)
    have hge := roundup_ge s (2 ^ j * 8) hppos
    have hle2 := roundup_le s (2 ^ j * 8) (2 ^ 63) hppos hdvd h1
    have hlow := roundup_lower s (2 ^ j * 8) hppos h0
    have hp2 : 2 ≤ 2 ^ j * 8 := by
      have := pow_pos (show (0 : Nat) < 2 from by norm_num) j
      omega
    obtain ⟨k, hk63, hkeq, hkge⟩ := round_pow2_spec _ (by omega) hle2
    exact ⟨k, hkeq, by omega⟩

/-- Witness for the amended C5 at a concrete input. -/
theorem jit_malloc_round_spec_witness :
    0 < 1000 ∧ 1000 ≤ 2 ^ 63 ∧
    ∃ k, jit_malloc_round 8 AllocType.Device 1000 = 2 ^ k ∧ 1000 ≤ 2 ^ k :=
  ⟨by norm_num, by norm_num,
   jit_malloc_round_spec 8 AllocType.Device 1000 (by norm_num) (by norm_num)
     (Or.inl (by norm_num))⟩

/-! ### Claim C6 -/

theorem rawAttempt_nil (t : AllocType) (n : Nat) (s : JitState) (h : s.raw = []) :
    rawAttempt t n s =
      (none, { s with events := s.events ++ [Event.rawAllocAttempt t n none] }) := by
  unfold rawAttempt
  rw [h]

theorem rawAttempt_cons (t : AllocType) (n : Nat) (s : JitState) (r : Option Ptr)
    (rest : List (Option Ptr)) (h : s.raw = r :: rest) :
    rawAttempt t n s =
      (r, { s with raw := rest,
                   events := s.events ++ [Event.rawAllocAttempt t n r] }) := by
  unfold rawAttempt
  rw [h]

theorem malloc_finish_stream (ai : AllocInfo) (p : Ptr) (s : JitState) :
    (malloc_finish ai p s).2.active_stream = s.active_stream := rfl

theorem malloc_finish_unmap (ai : AllocInfo) (p : Ptr) (s : JitState) :
    (malloc_finish ai p s).2.alloc_unmap = s.alloc_unmap := rfl

theorem malloc_finish_vw (ai : AllocInfo) (p : Ptr) (s : JitState) :
    (malloc_finish ai p s).2.vector_width = s.vector_width := rfl

theorem malloc_finish_used (ai : AllocInfo) (p : Ptr) (s : JitState) :
    (malloc_finish ai p s).2.alloc_used = usedEmplace s.alloc_used p ai := rfl

theorem malloc_finish_free (ai : AllocInfo) (p : Ptr) (s : JitState) :
    (malloc_finish ai p s).2.alloc_free = s.alloc_free := rfl

theorem jit_malloc_trim_body_state (s1 : JitState) (hum : s1.alloc_unmap = []) :
    jit_malloc_trim_body s1 =
      { s1 with alloc_free := [], alloc_unmap := [],
                events := s1.events ++ trimFreeEvents s1.alloc_free } := by
  unfold jit_malloc_trim_body
  rw [hum]
  rfl

theorem jit_malloc_trim_state_fields (w : Bool) (s : JitState)
    (hum : s.alloc_unmap = []) :
    (jit_malloc_trim w s).active_stream = s.active_stream ∧
    (jit_malloc_trim w s).alloc_used = s.alloc_used ∧
    (jit_malloc_trim w s).alloc_unmap = [] ∧
    (jit_malloc_trim w s).vector_width = s.vector_width := by
  by_cases hw : (w && !s.trim_warned) = true
  · have he : jit_malloc_trim w s = jit_malloc_trim_body
        { s with events := s.events ++ [Event.trimCalled w] ++ [Event.warnOOM],
                 trim_warned := true } := by
      show jit_malloc_trim_body
          (if (w && !s.trim_warned) = true then
            { s with events := s.events ++ [Event.trimCalled w] ++ [Event.warnOOM],
                     trim_warned := true }
           else { s with events := s.events ++ [Event.trimCalled w] }) = _
      rw [if_pos hw]
    rw [he, jit_malloc_trim_body_state
      { s with events := s.events ++ [Event.trimCalled w] ++ [Event.warnOOM],
               trim_warned := true } hum]
    exact ⟨rfl, rfl, rfl, rfl⟩
  · have he : jit_malloc_trim w s = jit_malloc_trim_body
        { s with events := s.events ++ [Event.trimCalled w] } := by
      show jit_malloc_trim_body
          (if (w && !s.trim_warned) = true then
            { s with events := s.events ++ [Event.trimCalled w] ++ [Event.warnOOM],
                     trim_warned := true }
           else { s with events := s.events ++ [Event.trimCalled w] }) = _
      rw [if_neg hw]
    rw [he, jit_malloc_trim_body_state
      { s with events := s.events ++ [Event.trimCalled w] } hum]
    exact ⟨rfl, rfl, rfl, rfl⟩

/-- Fields of the raw-path result on success: the stream, the unmap
queue and the vector width are untouched and the fresh pointer is
registered. -/
theorem jit_malloc_raw_ok_fields (ai : AllocInfo) (s : JitState) (d : Ptr)
    (hum : s.alloc_unmap = [])
    (h : (jit_malloc_raw ai s).1 = .ok d) :
    (jit_malloc_raw ai s).2.active_stream = s.active_stream ∧
    (jit_malloc_raw ai s).2.alloc_unmap = [] ∧
    (jit_malloc_raw ai s).2.vector_width = s.vector_width ∧
    (jit_malloc_raw ai s).2.alloc_used = usedEmplace s.alloc_used d ai := by
  cases hraw : s.raw with
  | nil =>
    have e1 := rawAttempt_nil ai.type ai.size s hraw
    have hB1 : (jit_malloc_trim jit_malloc_trim_default_warn
        { s with events := s.events ++ [Event.rawAllocAttempt ai.type ai.size none] }).raw
          = [] := by
      have hx := (jit_malloc_trim_effects jit_malloc_trim_default_warn
        { s with events := s.events ++ [Event.rawAllocAttempt ai.type ai.size none] }).1
      rw [hx]
      exact hraw
    have e3 := rawAttempt_nil ai.type ai.size _ hB1
    have hcon : (jit_malloc_raw ai s).1 = .error .OutOfMemory := by
      unfold jit_malloc_raw
      simp only [e1, e3]
    rw [hcon] at h
    exact Except.noConfusion h
  | cons r rest =>
    cases r with
    | some p =>
      have e1 := rawAttempt_cons ai.type ai.size s (some p) rest hraw
      have hres : jit_malloc_raw ai s = malloc_finish ai p
          { s with raw := rest,
                   events := s.events ++ [Event.rawAllocAttempt ai.type ai.size (some p)] } := by
        unfold jit_malloc_raw
        simp only [e1]
      rw [hres] at h ⊢
      rw [malloc_finish_fst] at h
      obtain rfl : p = d := by
        injection h
      refine ⟨malloc_finish_stream _ _ _, (malloc_finish_unmap _ _ _).trans hum,
        malloc_finish_vw _ _ _, malloc_finish_used _ _ _⟩
    | none =>
      have e1 := rawAttempt_cons ai.type ai.size s none rest hraw
      have hB1 : (jit_malloc_trim jit_malloc_trim_default_warn
          { s with raw := rest,
                   events := s.events ++ [Event.rawAllocAttempt ai.type ai.size none] }).raw
            = rest :=
        (jit_malloc_trim_effects _ _).1
      obtain ⟨htr1, htr2, htr3, htr4⟩ :=
        jit_malloc_trim_state_fields jit_malloc_trim_default_warn
          { s with raw := rest,
                   events := s.events ++ [Event.rawAllocAttempt ai.type ai.size none] }
          hum
      cases rest with
      | nil =>
        have e3 := rawAttempt_nil ai.type ai.size _ hB1
        have hcon : (jit_malloc_raw ai s).1 = .error .OutOfMemory := by
          unfold jit_malloc_raw
          simp only [e1, e3]
        rw [hcon] at h
        exact Except.noConfusion h
      | cons r2 rest2 =>
        cases r2 with
        | none =>
          have e3 := rawAttempt_cons ai.type ai.size _ none rest2 hB1
          have hcon : (jit_malloc_raw ai s).1 = .error .OutOfMemory := by
            unfold jit_malloc_raw
            simp only [e1, e3]
          rw [hcon] at h
          exact Except.noConfusion h
        | some p =>
          have e3 := rawAttempt_cons ai.type ai.size _ (some p) rest2 hB1
          have hres : jit_malloc_raw ai s = malloc_finish ai p
              { (jit_malloc_trim jit_malloc_trim_default_warn
                  { s with raw := some p :: rest2,
                           events := s.events ++ [Event.rawAllocAttempt ai.type ai.size none] }) with
                raw := rest2,
                events := (jit_malloc_trim jit_malloc_trim_default_warn
                  { s with raw := some p :: rest2,
                           events := s.events ++ [Event.rawAllocAttempt ai.type ai.size none] }).events
                  ++ [Event.rawAllocAttempt ai.type ai.size (some p)] } := by
            unfold jit_malloc_raw
            simp only [e1, e3]
          rw [hres] at h ⊢
          rw [malloc_finish_fst] at h
          obtain rfl : p = d := by
            injection h
          refine ⟨(malloc_finish_stream _ _ _).trans htr1,
            (malloc_finish_unmap _ _ _).trans htr3,
            (malloc_finish_vw _ _ _).trans htr4,
            (malloc_finish_used _ _ _).trans ?_⟩
          rw [show ((jit_malloc_trim jit_malloc_trim_default_warn
              { s with raw := some p :: rest2,
                       events := s.events ++ [Event.rawAllocAttempt ai.type ai.size none] }).alloc_used)
              = s.alloc_used from htr2]

theorem popBack_concat (l : List Ptr) (p : Ptr) :
    popBack (l ++ [p]) = some (p, l) := by
  unfold popBack
  rw [List.getLast?_concat, List.dropLast_concat]

theorem bucketPush_eq_concat (b : BucketMap) (ai : AllocInfo) (p : Ptr) :
    bucketPush b ai p = bucketConcat b ai [p] := by
  induction b with
  | nil => rfl
  | cons kv rest ih =>
    obtain ⟨k, v⟩ := kv
    by_cases hk : k = ai
    · simp [bucketPush, bucketConcat, hk]
    · simp [bucketPush, bucketConcat, hk, ih]

/-- If a chain has no poppable entry for `ai`, the head node's bucket
for `ai` is absent or empty. -/
theorem chainPop_none_head (ai : AllocInfo) (node : ChainNode) (rest : Chain)
    (h : chainPop ai (node :: rest) = none) :
    (bucketFind node ai).getD [] = [] := by
  cases hf : bucketFind node ai with
  | none => rfl
  | some l =>
    show l = []
    unfold chainPop at h
    simp only [hf] at h
    by_contra hl
    obtain ⟨q, hq⟩ : ∃ q, l.getLast? = some q := by
      cases hgl2 : l.getLast? with
      | some q => exact ⟨q, rfl⟩
      | none => exact absurd (List.getLast?_eq_none_iff.1 hgl2) hl
    have hpb : popBack l = some (q, l.dropLast) := by
      unfold popBack
      rw [hq]
    simp only [hpb] at h
    cases h

/-- Pushing onto the head of a chain with no poppable `ai` entry makes
the pushed pointer the unique poppable one. -/
theorem chainPop_chainPushHead (c : Chain) (ai : AllocInfo) (p : Ptr)
    (h : chainPop ai c = none) :
    ∃ c2, chainPop ai (chainPushHead c ai p) = some (p, c2) := by
  cases c with
  | nil =>
    exact ⟨[[(ai, ([] : List Ptr))]],
      by simp [chainPushHead, chainPop, bucketPush, bucketFind, popBack, bucketSet]⟩
  | cons node rest =>
    have hhead := chainPop_none_head ai node rest h
    have hfindp : bucketFind (bucketPush node ai p) ai = some [p] := by
      rw [bucketPush_eq_concat, bucketFind_bucketConcat_self, hhead]
      rfl
    refine ⟨bucketSet (bucketPush node ai p) ai [] :: rest, ?_⟩
    show chainPop ai (bucketPush node ai p :: rest) = _
    unfold chainPop
    simp only [hfindp]
    rw [show popBack [p] = some (p, []) from rfl]

theorem usedFind_usedEmplace_fresh (u : List (Ptr × AllocInfo)) (p : Ptr)
    (ai : AllocInfo) (h : usedFind u p = none) :
    usedFind (usedEmplace u p ai) p = some ai := by
  unfold usedEmplace
  rw [h]
  show usedFind ((p, ai) :: u) p = some ai
  unfold usedFind
  rw [if_pos rfl]

/-- The step `jit_free` takes on a live `Device` pointer with a
matching CUDA stream and an empty unmap queue: push onto the head
chain node, decrement usage, erase the LiveTable entry; the caches,
the oracle and the rest of the stream are untouched. -/
theorem jit_free_device_fields (s1 : JitState) (st : Stream) (ai : AllocInfo)
    (d1 : Ptr)
    (hst : s1.active_stream = some st)
    (hcuda : st.cuda = true)
    (hum : s1.alloc_unmap = [])
    (hfind : usedFind s1.alloc_used d1 = some ai)
    (hai : ai.type = AllocType.Device)
    (hd1 : d1 ≠ 0) :
    (jit_free d1 s1).1 = .ok () ∧
    (jit_free d1 s1).2.active_stream =
      some { st with release_chain := chainPushHead st.release_chain ai d1 } ∧
    (jit_free d1 s1).2.alloc_free = s1.alloc_free ∧
    (jit_free d1 s1).2.raw = s1.raw ∧
    (jit_free d1 s1).2.vector_width = s1.vector_width ∧
    (jit_free d1 s1).2.alloc_unmap = [] ∧
    (jit_free d1 s1).2.alloc_used = usedErase s1.alloc_used d1 := by
  have hc2 : ¬ ai.type = AllocType.Host := by
    rw [hai]
    intro hh
    cases hh
  have hc3 : (!(ai.type == AllocType.HostAsync)) = st.cuda := by
    rw [hai, hcuda]
    rfl
  have hres : jit_free d1 s1 =
      (.ok (),
       { s1 with
         active_stream :=
           some { st with release_chain := chainPushHead st.release_chain ai d1 },
         alloc_unmap := [],
         alloc_usage :=
           s1.alloc_usage.set ai.type
             ((s1.alloc_usage.get ai.type + (two64 - ai.size % two64)) % two64),
         alloc_used := usedErase s1.alloc_used d1 }) := by
    unfold jit_free
    rw [hum]
    show jit_free_go 1 d1 s1 = _
    unfold jit_free_go
    rw [if_neg hd1]
    simp only [hfind, hst]
    rw [if_neg hc2, if_pos hc3, if_pos hcuda]
    rw [show ({ s1 with
        active_stream := some { st with release_chain := chainPushHead st.release_chain ai d1 } } : JitState).alloc_unmap = [] from hum]
    rfl
  rw [hres]
  exact ⟨rfl, rfl, rfl, rfl, rfl, rfl, rfl⟩

/-- `jit_malloc` for `Device` with a matching CUDA stream and no local
chain hit: global cache, then the raw path. -/
theorem jit_malloc_device_eq (s : JitState) (st : Stream) (n : Nat)
    (hst : s.active_stream = some st) (hcuda : st.cuda = true) (hn : n ≠ 0)
    (hchain : chainPop
      ⟨AllocType.Device, st.device, jit_malloc_round s.vector_width AllocType.Device n⟩
      st.release_chain = none) :
    jit_malloc AllocType.Device n s =
      match globalPop
        ⟨AllocType.Device, st.device, jit_malloc_round s.vector_width AllocType.Device n⟩
        s.alloc_free with
      | some (p, free2) =>
        malloc_finish
          ⟨AllocType.Device, st.device, jit_malloc_round s.vector_width AllocType.Device n⟩
          p { s with alloc_free := free2 }
      | none =>
        jit_malloc_raw
          ⟨AllocType.Device, st.device, jit_malloc_round s.vector_width AllocType.Device n⟩
          s := by
  unfold jit_malloc jit_malloc_lookup
  rw [if_neg hn]
  simp [hst, hcuda, hchain]
  rcases globalPop
    ⟨AllocType.Device, st.device, jit_malloc_round s.vector_width AllocType.Device n⟩
    s.alloc_free with _ | ⟨p, f⟩ <;> rfl

/-- A cache hit in the lookup phase determines the result of
`jit_malloc` for a nonzero size. -/
theorem jit_malloc_hit_eq (t : AllocType) (n : Nat) (s2 : JitState)
    (ai : AllocInfo) (p : Ptr) (s3 : JitState) (hn : n ≠ 0)
    (hl : jit_malloc_lookup t (jit_malloc_round s2.vector_width t n) s2 =
      .hit ai p s3) :
    jit_malloc t n s2 = malloc_finish ai p s3 := by
  unfold jit_malloc
  rw [if_neg hn]
  simp only [hl]

/-- Claim C6: with a GPU-backend active stream and no other pointer of
the same rounded `AllocInfo` pending in its ReleaseChain, the sequence
`allocate(Device, n) → d1; free(d1); allocate(Device, n)` (no flush in
between, empty unmap queue, `d1` fresh and non-null) returns `d1`
again: the second allocation pops the pointer that `free` pushed onto
the head chain node, touching neither the raw allocator oracle nor the
global cache. -/
theorem device_local_recycle (s : JitState) (st : Stream) (n d1 : Nat)
    (hst : s.active_stream = some st)
    (hcuda : st.cuda = true)
    (hum : s.alloc_unmap = [])
    (hn : n ≠ 0)
    (hchain : chainPop
      ⟨AllocType.Device, st.device, jit_malloc_round s.vector_width AllocType.Device n⟩
      st.release_chain = none)
    (h1 : (jit_malloc AllocType.Device n s).1 = .ok d1)
    (hfresh : usedFind s.alloc_used d1 = none)
    (hd1 : d1 ≠ 0) :
    (jit_free d1 (jit_malloc AllocType.Device n s).2).1 = .ok () ∧
    (jit_malloc AllocType.Device n
      (jit_free d1 (jit_malloc AllocType.Device n s).2).2).1 = .ok d1 ∧
    (jit_malloc AllocType.Device n
      (jit_free d1 (jit_malloc AllocType.Device n s).2).2).2.alloc_free =
      (jit_free d1 (jit_malloc AllocType.Device n s).2).2.alloc_free ∧
    (jit_malloc AllocType.Device n
      (jit_free d1 (jit_malloc AllocType.Device n s).2).2).2.raw =
      (jit_free d1 (jit_malloc AllocType.Device n s).2).2.raw := by
  have hme := jit_malloc_device_eq s st n hst hcuda hn hchain
  -- fields of the state after the first allocation
  have hs1 : (jit_malloc AllocType.Device n s).2.active_stream = some st ∧
      (jit_malloc AllocType.Device n s).2.alloc_unmap = [] ∧
      (jit_malloc AllocType.Device n s).2.vector_width = s.vector_width ∧
      (jit_malloc AllocType.Device n s).2.alloc_used =
        usedEmplace s.alloc_used d1
          ⟨AllocType.Device, st.device, jit_malloc_round s.vector_width AllocType.Device n⟩ := by
    rw [hme] at h1 ⊢
    cases hgp : globalPop
        ⟨AllocType.Device, st.device, jit_malloc_round s.vector_width AllocType.Device n⟩
        s.alloc_free with
    | some pr =>
      obtain ⟨p, free2⟩ := pr
      rw [hgp] at h1
      rw [malloc_finish_fst] at h1
      obtain rfl : p = d1 := by
        injection h1
      exact ⟨(malloc_finish_stream _ _ _).trans hst,
        (malloc_finish_unmap _ _ _).trans hum,
        malloc_finish_vw _ _ _, malloc_finish_used _ _ _⟩
    | none =>
      rw [hgp] at h1
      obtain ⟨k1, k2, k3, k4⟩ := jit_malloc_raw_ok_fields _ s d1 hum h1
      exact ⟨k1.trans hst, k2, k3, k4⟩
  obtain ⟨hs1st, hs1um, hs1vw, hs1used⟩ := hs1
  have hfind1 : usedFind (jit_malloc AllocType.Device n s).2.alloc_used d1 =
      some ⟨AllocType.Device, st.device, jit_malloc_round s.vector_width AllocType.Device n⟩ := by
    rw [hs1used]
    exact usedFind_usedEmplace_fresh _ _ _ hfresh
  -- the free pushes d1 onto the head chain node
  obtain ⟨hf1, hf2, hf3, hf4, hf5, hf6, hf7⟩ :=
    jit_free_device_fields (jit_malloc AllocType.Device n s).2 st
      ⟨AllocType.Device, st.device, jit_malloc_round s.vector_width AllocType.Device n⟩
      d1 hs1st hcuda hs1um hfind1 rfl hd1
  refine ⟨hf1, ?_⟩
  -- the second allocation pops d1 from the pushed head node
  obtain ⟨c2, hpop⟩ := chainPop_chainPushHead st.release_chain
    ⟨AllocType.Device, st.device, jit_malloc_round s.vector_width AllocType.Device n⟩
    d1 hchain
  have hround2 : jit_malloc_round
      (jit_free d1 (jit_malloc AllocType.Device n s).2).2.vector_width
      AllocType.Device n = jit_malloc_round s.vector_width AllocType.Device n := by
    rw [hf5, hs1vw]
  have hlook : jit_malloc_lookup AllocType.Device
      (jit_malloc_round s.vector_width AllocType.Device n)
      (jit_free d1 (jit_malloc AllocType.Device n s).2).2 =
      .hit ⟨AllocType.Device, st.device, jit_malloc_round s.vector_width AllocType.Device n⟩
        d1 { (jit_free d1 (jit_malloc AllocType.Device n s).2).2 with
             active_stream := some { st with release_chain := c2 } } := by
    unfold jit_malloc_lookup
    simp [hf2, hcuda, hpop]
  have hm2 : jit_malloc AllocType.Device n
      (jit_free d1 (jit_malloc AllocType.Device n s).2).2 =
      malloc_finish
        ⟨AllocType.Device, st.device, jit_malloc_round s.vector_width AllocType.Device n⟩
        d1
        { (jit_free d1 (jit_malloc AllocType.Device n s).2).2 with
          active_stream := some { st with release_chain := c2 } } := by
    refine jit_malloc_hit_eq _ _ _ _ _ _ hn ?_
    rw [hround2]
    exact hlook
  rw [hm2]
  exact ⟨malloc_finish_fst _ _ _, malloc_finish_free _ _ _, rfl⟩

/-- Witness for C6 at a concrete input. -/
theorem device_local_recycle_witness :
    (jit_free 1000 (jit_malloc AllocType.Device 1024 baseState).2).1 = .ok () ∧
    (jit_malloc AllocType.Device 1024
      (jit_free 1000 (jit_malloc AllocType.Device 1024 baseState).2).2).1 = .ok 1000 ∧
    (jit_malloc AllocType.Device 1024
      (jit_free 1000 (jit_malloc AllocType.Device 1024 baseState).2).2).2.alloc_free =
      (jit_free 1000 (jit_malloc AllocType.Device 1024 baseState).2).2.alloc_free ∧
    (jit_malloc AllocType.Device 1024
      (jit_free 1000 (jit_malloc AllocType.Device 1024 baseState).2).2).2.raw =
      (jit_free 1000 (jit_malloc AllocType.Device 1024 baseState).2).2.raw :=
  device_local_recycle baseState cudaStream 1024 1000 (by decide) (by decide)
    (by decide) (by decide) (by decide) (by decide) (by decide) (by decide)


/-! ### Claim C10 -/

/-- An emplaced key is always found afterwards (whether it was fresh
or already present). -/
theorem usedFind_usedEmplace_ne_none (u : List (Ptr × AllocInfo)) (p : Ptr)
    (ai : AllocInfo) : usedFind (usedEmplace u p ai) p ≠ none := by
  unfold usedEmplace
  cases hf : usedFind u p with
  | some b => simp [hf]
  | none => simp [usedFind]

/-- A successful raw-path allocation registers the returned pointer in
the LiveTable. -/
theorem jit_malloc_raw_registers (ai : AllocInfo) (s2 : JitState) (pn : Ptr)
    (h : (jit_malloc_raw ai s2).1 = .ok pn) :
    usedFind (jit_malloc_raw ai s2).2.alloc_used pn ≠ none := by
  unfold jit_malloc_raw at h ⊢
  cases h1 : (rawAttempt ai.type ai.size s2).1 with
  | some p =>
    simp only [h1] at h ⊢
    rw [malloc_finish_fst] at h
    obtain rfl : p = pn := by
      injection h
    rw [malloc_finish_used]
    exact usedFind_usedEmplace_ne_none _ _ _
  | none =>
    simp only [h1] at h ⊢
    cases h2 : (rawAttempt ai.type ai.size (jit_malloc_trim jit_malloc_trim_default_warn
        (rawAttempt ai.type ai.size s2).2)).1 with
    | some p =>
      simp only [h2] at h ⊢
      rw [malloc_finish_fst] at h
      obtain rfl : p = pn := by
        injection h
      rw [malloc_finish_used]
      exact usedFind_usedEmplace_ne_none _ _ _
    | none =>
      simp [h2] at h

/-- A successful `jit_malloc` of a nonzero size registers the returned
pointer in the LiveTable. -/
theorem jit_malloc_registers (t : AllocType) (n : Nat) (s : JitState) (pn : Ptr)
    (hn : n ≠ 0) (h : (jit_malloc t n s).1 = .ok pn) :
    usedFind (jit_malloc t n s).2.alloc_used pn ≠ none := by
  unfold jit_malloc at h ⊢
  rw [if_neg hn] at h ⊢
  cases hl : jit_malloc_lookup t (jit_malloc_round s.vector_width t n) s with
  | err e =>
    simp [hl] at h
  | hit ai p s2 =>
    simp only [hl] at h ⊢
    rw [malloc_finish_fst] at h
    obtain rfl : p = pn := by
      injection h
    rw [malloc_finish_used]
    exact usedFind_usedEmplace_ne_none _ _ _
  | miss ai s2 =>
    simp only [hl] at h ⊢
    exact jit_malloc_raw_registers ai s2 pn h

/-- Counterexample to claim C10: with a GPU-backend active stream, a
live `Device` pointer and **target** kind `HostAsync` (a source/target
combination with kind `HostAsync` that is not the in-place fast path),
`jit_malloc_migrate` fails with the wrong-backend error raised by the
inner `jit_malloc(HostAsync, size)` before anything is allocated or
registered: the call fails atomically with the state unchanged, and no
unsupported-migration error is raised. -/
theorem jit_malloc_migrate_target_hostasync :
    jit_malloc_migrate 5 AllocType.HostAsync false migrateDevState =
      (.error .WrongBackend, migrateDevState) := by decide

/-- Claim C10 (amended to the source-`HostAsync` combinations): with a
GPU-backend active stream, a live pointer of kind `HostAsync`, a
target kind other than `HostAsync` and not the in-place
`Host`↔`HostAsync` move fast path, when the inner allocation of the
destination buffer succeeds, `jit_malloc_migrate` raises the
unsupported-migration error only after that fresh buffer has been
allocated and registered in the LiveTable: the error path is not
atomic. -/
theorem migrate_unsupported_after_alloc (ptr : Ptr) (t : AllocType) (move : Bool)
    (s : JitState) (st : Stream) (ai : AllocInfo) (pn : Ptr)
    (hst : s.active_stream = some st)
    (hcuda : st.cuda = true)
    (hfind : usedFind s.alloc_used ptr = some ai)
    (hha : ai.type = AllocType.HostAsync)
    (ht : t ≠ AllocType.HostAsync)
    (hfast : ¬ (t = AllocType.Host ∧ move = true))
    (hsz : ai.size ≠ 0)
    (hok : (jit_malloc t ai.size s).1 = .ok pn) :
    jit_malloc_migrate ptr t move s =
      (.error .UnsupportedMigration, (jit_malloc t ai.size s).2) ∧
    usedFind (jit_malloc t ai.size s).2.alloc_used pn ≠ none := by
  have hc1 : ¬ (((ai.type = AllocType.Host ∧ t = AllocType.HostAsync) ∨
      (ai.type = AllocType.HostAsync ∧ t = AllocType.Host)) ∧ move = true) := by
    rintro ⟨h1 | h2, hmv⟩
    · rw [hha] at h1
      exact AllocType.noConfusion h1.1
    · exact hfast ⟨h2.2, hmv⟩
  have hc2 : ¬ (ai.type = t ∧ (t ≠ AllocType.Device ∨ ai.device = st.device)) := by
    rintro ⟨h1, _⟩
    exact ht (hha.symm.trans h1).symm
  have hc3 : ¬ st.cuda = false := by
    rw [hcuda]
    decide
  constructor
  · unfold jit_malloc_migrate
    simp only [hst, hfind]
    rw [if_neg hc1, if_neg hc2, if_neg hc3]
    rcases hres : jit_malloc t ai.size s with ⟨r, s3⟩
    rw [hres] at hok
    obtain rfl : r = Except.ok pn := hok
    simp [hha]
  · exact jit_malloc_registers t ai.size s pn hsz hok

/-- Witness for the amended C10 at a concrete input. -/
theorem migrate_unsupported_after_alloc_witness :
    jit_malloc_migrate 5 AllocType.Device false migrateHaState =
      (.error .UnsupportedMigration, (jit_malloc AllocType.Device 64 migrateHaState).2) ∧
    usedFind (jit_malloc AllocType.Device 64 migrateHaState).2.alloc_used 1000 ≠ none :=
  migrate_unsupported_after_alloc 5 AllocType.Device false migrateHaState cudaStream
    ⟨AllocType.HostAsync, 0, 64⟩ 1000 (by decide) (by decide) (by decide) rfl
    (by decide) (by decide) (by decide) (by decide)

end Malloc
